import Mathlib

/-!
Verification development for the `system-stats-dashboard` repository
(`src/stats.rs`, `src/stats_history.rs`).

Shallow embedding conventions:
* Rust `f32` values are modelled as exact rationals (`ℚ`); `u64`/`usize`
  are modelled as `ℕ`, `i64` timestamps as `ℤ`.
* `DateTime<Local>` collection times are modelled as opaque integers.
* Fallible I/O is modelled with `Except Unit`.
* `serde_json` serialization/parsing is external to the repository; a history
  file line is therefore classified abstractly (blank / parses to a snapshot /
  malformed), and the byte length of a serialized line is passed explicitly.
-/

/-- Mirrors `LoadAverages` of `src/stats.rs`. -/
structure LoadAverages where
  one_minute : ℚ
  five_minutes : ℚ
  fifteen_minutes : ℚ
deriving DecidableEq, Repr, Inhabited

/-- Mirrors `GeneralStats` of `src/stats.rs`. -/
structure GeneralStats where
  uptime_seconds : Option ℕ
  boot_timestamp : Option ℤ
  load_averages : Option LoadAverages
deriving DecidableEq, Repr, Inhabited

/-- Mirrors `CpuStats` of `src/stats.rs`. -/
structure CpuStats where
  per_logical_cpu_load_percent : Option (List ℚ)
  aggregate_load_percent : Option ℚ
  temp_celsius : Option ℚ
deriving DecidableEq, Repr, Inhabited

/-- Mirrors `MemoryStats` of `src/stats.rs`. -/
structure MemoryStats where
  used_mb : ℕ
  total_mb : ℕ
deriving DecidableEq, Repr, Inhabited

/-- Mirrors `MountStats` of `src/stats.rs`. -/
structure MountStats where
  fs_type : String
  mounted_from : String
  mounted_on : String
  used_mb : ℕ
  total_mb : ℕ
deriving DecidableEq, Repr, Inhabited

/-- Mirrors `NetworkInterfaceStats` of `src/stats.rs`. -/
structure NetworkInterfaceStats where
  name : String
  addresses : List String
  sent_mb : ℕ
  received_mb : ℕ
  sent_packets : ℕ
  received_packets : ℕ
  send_errors : ℕ
  receive_errors : ℕ
deriving DecidableEq, Repr, Inhabited

/-- Mirrors `SocketStats` of `src/stats.rs`. -/
structure SocketStats where
  tcp_in_use : ℕ
  tcp_orphaned : ℕ
  udp_in_use : ℕ
  tcp6_in_use : ℕ
  udp6_in_use : ℕ
deriving DecidableEq, Repr, Inhabited

/-- Mirrors `NetworkStats` of `src/stats.rs`. -/
structure NetworkStats where
  interfaces : Option (List NetworkInterfaceStats)
  sockets : Option SocketStats
deriving DecidableEq, Repr, Inhabited

/-- Mirrors `AllStats` of `src/stats.rs`; the `DateTime<Local>` collection
time is modelled as an opaque integer. -/
structure AllStats where
  general : GeneralStats
  cpu : CpuStats
  memory : Option MemoryStats
  filesystems : Option (List MountStats)
  network : NetworkStats
  collection_time : ℤ
deriving DecidableEq, Repr, Inhabited

/-- Mirrors `StatsHistory` of `src/stats_history.rs`.  In the source
`max_size` is a `NonZeroUsize`; theorems that need it carry `0 < max_size`. -/
structure StatsHistory where
  max_size : ℕ
  stats : List AllStats
  most_recent_index : ℕ
deriving DecidableEq, Repr, Inhabited

/-- Mirrors `index_after` of `src/stats_history.rs`. -/
def index_after (i : ℕ) (max_size : ℕ) : ℕ :=
  (i + 1) % max_size

/-- Mirrors `StatsHistory::new`. -/
def StatsHistory.new (max_size : ℕ) : StatsHistory :=
  { max_size := max_size, stats := [], most_recent_index := 0 }

/-- Mirrors `StatsHistory::get_next_index`. -/
def StatsHistory.get_next_index (h : StatsHistory) : ℕ :=
  index_after h.most_recent_index h.max_size

/-- Mirrors `StatsHistory::push`.  In the full branch the source advances
`most_recent_index` and then calls `update_most_recent_stats`, which (storage
being non-empty, as `max_size` is a `NonZeroUsize`) overwrites the entry at
the new index; that overwrite is inlined here to keep the definition
non-mutually-recursive. -/
def StatsHistory.push (h : StatsHistory) (new_stats : AllStats) : StatsHistory :=
  if h.stats.length = h.max_size then
    { h with most_recent_index := h.get_next_index,
             stats := h.stats.set h.get_next_index new_stats }
  else
    { h with stats := h.stats ++ [new_stats],
             most_recent_index := h.stats.length }

/-- Mirrors `StatsHistory::update_most_recent_stats`. -/
def StatsHistory.update_most_recent_stats (h : StatsHistory) (new_stats : AllStats) :
    StatsHistory :=
  if h.stats.isEmpty then h.push new_stats
  else { h with stats := h.stats.set h.most_recent_index new_stats }

/-- Mirrors `StatsHistory::get_most_recent_stats`. -/
def StatsHistory.get_most_recent_stats (h : StatsHistory) : Option AllStats :=
  if h.stats.isEmpty then none
  else some (h.stats.getD h.most_recent_index default)

/-- A sequence of `push` calls, oldest first (left fold, as successive calls
on the mutable history). -/
def StatsHistory.pushAll (h : StatsHistory) (l : List AllStats) : StatsHistory :=
  l.foldl StatsHistory.push h

/-- Mirrors the starting index chosen by `IntoIterator for &StatsHistory`. -/
def intoIterIndex (h : StatsHistory) : ℕ :=
  if h.stats.length = h.max_size then h.get_next_index else 0

/-- Mirrors `StatsHistoryIterator::next`, unrolled into the list of yielded
items.  The source iterator has no fuel; the `fuel` argument only bounds how
far the (possibly infinite, for malformed states) traversal is observed, and
the theorems show the output is the same for every sufficient fuel.  Indexing
`stats[index]` is modelled with `getD` (the source would panic out of
bounds; reachable states are proved in bounds). -/
def iterYield (h : StatsHistory) : ℕ → ℕ → List AllStats
  | _, 0 => []
  | index, fuel + 1 =>
    let result := h.stats.getD index default
    if index = h.most_recent_index then [result]
    else result :: iterYield h (index_after index h.max_size) fuel

/-- Sample snapshot differing from `default` only in its collection time;
used in concrete tests and witnesses throughout. -/
def sampleStats (t : ℤ) : AllStats :=
  { general := { uptime_seconds := none, boot_timestamp := none, load_averages := none },
    cpu := { per_logical_cpu_load_percent := none, aggregate_load_percent := none,
             temp_celsius := none },
    memory := none,
    filesystems := none,
    network := { interfaces := none, sockets := none },
    collection_time := t }

example :
    let h := (StatsHistory.new 2).pushAll [sampleStats 1, sampleStats 2, sampleStats 3]
    iterYield h (intoIterIndex h) 2 = [sampleStats 2, sampleStats 3] := by decide

/-- Mirrors `MovingAverage<f32>::updated_average` of `src/stats_history.rs`
(`self + ((new_value - self) / n as f32)`), over exact rationals. -/
def updated_average (self : ℚ) (new_value : ℚ) (n : ℕ) : ℚ :=
  self + ((new_value - self) / (n : ℚ))

/-- Mirrors `MovingAverageCollection<f32>::update_averages`: `self` is
zero-padded up to the length of `new_values`, and each position covered by
`new_values` is updated with `self[i] + ((new_value - self[i]) / n)`;
positions beyond `new_values` are kept. -/
def update_averages : List ℚ → List ℚ → ℕ → List ℚ
  | self, [], _ => self
  | [], new_value :: rest, n =>
      (0 + ((new_value - 0) / (n : ℚ))) :: update_averages [] rest n
  | a :: s, new_value :: rest, n =>
      (a + ((new_value - a) / (n : ℚ))) :: update_averages s rest n

/-- The mutable accumulators of `consolidate_all_stats`, one field per local
variable of the source function. -/
structure ConsAcc where
  average_one_min_load_average : ℚ
  average_five_min_load_average : ℚ
  average_fifteen_min_load_average : ℚ
  average_per_logical_cpu_loads : List ℚ
  average_aggregate_cpu_load : ℚ
  average_temp : ℚ
  average_mem_used : ℚ
  max_total_mem : ℕ
  average_tcp_used : ℚ
  average_tcp_orphaned : ℚ
  average_udp_used : ℚ
  average_tcp6_used : ℚ
  average_udp6_used : ℚ
deriving DecidableEq, Repr, Inhabited

/-- The initial accumulator values of `consolidate_all_stats`. -/
def initConsAcc : ConsAcc :=
  { average_one_min_load_average := 0
    average_five_min_load_average := 0
    average_fifteen_min_load_average := 0
    average_per_logical_cpu_loads := []
    average_aggregate_cpu_load := 0
    average_temp := 0
    average_mem_used := 0
    max_total_mem := 0
    average_tcp_used := 0
    average_tcp_orphaned := 0
    average_udp_used := 0
    average_tcp6_used := 0
    average_udp6_used := 0 }

/-- One iteration of the `for (i, all_stats) in stats_list.iter().enumerate()`
loop of `consolidate_all_stats`, called with `n = i + 1`.  Each `if let Some`
of the source is a `match`. -/
def consStep (acc : ConsAcc) (all_stats : AllStats) (n : ℕ) : ConsAcc :=
  let acc := match all_stats.general.load_averages with
    | some load_averages =>
        { acc with
          average_one_min_load_average :=
            updated_average acc.average_one_min_load_average load_averages.one_minute n,
          average_five_min_load_average :=
            updated_average acc.average_five_min_load_average load_averages.five_minutes n,
          average_fifteen_min_load_average :=
            updated_average acc.average_fifteen_min_load_average load_averages.fifteen_minutes n }
    | none => acc
  let acc := match all_stats.cpu.per_logical_cpu_load_percent with
    | some loads =>
        { acc with
          average_per_logical_cpu_loads :=
            update_averages acc.average_per_logical_cpu_loads loads n }
    | none => acc
  let acc := match all_stats.cpu.aggregate_load_percent with
    | some aggregate =>
        { acc with
          average_aggregate_cpu_load :=
            updated_average acc.average_aggregate_cpu_load aggregate n }
    | none => acc
  let acc := match all_stats.cpu.temp_celsius with
    | some temp =>
        { acc with average_temp := updated_average acc.average_temp temp n }
    | none => acc
  let acc := match all_stats.memory with
    | some memory_stats =>
        { acc with
          average_mem_used :=
            updated_average acc.average_mem_used (memory_stats.used_mb : ℚ) n,
          max_total_mem :=
            if memory_stats.total_mb > acc.max_total_mem then memory_stats.total_mb
            else acc.max_total_mem }
    | none => acc
  let acc := match all_stats.network.sockets with
    | some socket_stats =>
        { acc with
          average_tcp_used :=
            updated_average acc.average_tcp_used (socket_stats.tcp_in_use : ℚ) n,
          average_tcp_orphaned :=
            updated_average acc.average_tcp_orphaned (socket_stats.tcp_orphaned : ℚ) n,
          average_udp_used :=
            updated_average acc.average_udp_used (socket_stats.udp_in_use : ℚ) n,
          average_tcp6_used :=
            updated_average acc.average_tcp6_used (socket_stats.tcp6_in_use : ℚ) n,
          average_udp6_used :=
            updated_average acc.average_udp6_used (socket_stats.udp6_in_use : ℚ) n }
    | none => acc
  acc

/-- The whole accumulation loop of `consolidate_all_stats`: entry number
`i` (0-based) is processed with count `i + 1`. -/
def consFold : List AllStats → ℕ → ConsAcc → ConsAcc
  | [], _, acc => acc
  | x :: rest, i, acc => consFold rest (i + 1) (consStep acc x (i + 1))

/-- Rust `f32::round` (round half away from zero), over exact rationals. -/
def rustRound (q : ℚ) : ℤ :=
  if 0 ≤ q then ⌊q + 1 / 2⌋ else ⌈q - 1 / 2⌉

/-- Rust `f32::round()` followed by an `as u64` / `as usize` cast (which
saturates at zero for negative values). -/
def roundToNat (q : ℚ) : ℕ :=
  (rustRound q).toNat

/-- Mirrors `consolidate_all_stats` of `src/stats_history.rs`.  The source
panics on an empty list (`stats_list.pop().unwrap()` is reached only for
non-empty input); the empty case here returns `default` and is unreachable in
every theorem below. -/
def consolidate_all_stats (stats_list : List AllStats) : AllStats :=
  match stats_list.getLast? with
  | none => default
  | some last_stats =>
    let acc := consFold stats_list 0 initConsAcc
    { general :=
        { uptime_seconds := last_stats.general.uptime_seconds
          boot_timestamp := last_stats.general.boot_timestamp
          load_averages := some
            { one_minute := acc.average_one_min_load_average
              five_minutes := acc.average_five_min_load_average
              fifteen_minutes := acc.average_fifteen_min_load_average } }
      cpu :=
        { per_logical_cpu_load_percent := some acc.average_per_logical_cpu_loads
          aggregate_load_percent := some acc.average_aggregate_cpu_load
          temp_celsius := some acc.average_temp }
      memory := some
        { used_mb := roundToNat acc.average_mem_used
          total_mb := acc.max_total_mem }
      filesystems := last_stats.filesystems
      network :=
        { interfaces := last_stats.network.interfaces
          sockets := some
            { tcp_in_use := roundToNat acc.average_tcp_used
              tcp_orphaned := roundToNat acc.average_tcp_orphaned
              udp_in_use := roundToNat acc.average_udp_used
              tcp6_in_use := roundToNat acc.average_tcp6_used
              udp6_in_use := roundToNat acc.average_udp6_used } }
      collection_time := last_stats.collection_time }

/-- One tick of the update-thread loop of `UpdatingStatsHistory::new`, as far
as it touches the in-memory state: the fresh sample is appended to
`recent_stats`; at the consolidation threshold the whole batch is
consolidated, `update_most_recent_stats` is called with the consolidated
snapshot, `push` with the raw one, and the batch is reset; below the
threshold only `update_most_recent_stats` is called with the raw sample.
Disk persistence does not touch the history and is modelled separately
(`persist_stats`). -/
def collectTick (consolidation_limit : ℕ) (recent_stats : List AllStats)
    (history : StatsHistory) (new_stats : AllStats) : List AllStats × StatsHistory :=
  let recent := recent_stats ++ [new_stats]
  if consolidation_limit ≤ recent.length then
    let consolidated_stats := consolidate_all_stats recent
    let history := history.update_most_recent_stats consolidated_stats
    let history := history.push new_stats
    ([], history)
  else
    (recent, history.update_most_recent_stats new_stats)

/-- A run of consecutive collector ticks over the given samples. -/
def runTicks (consolidation_limit : ℕ) (state : List AllStats × StatsHistory)
    (samples : List AllStats) : List AllStats × StatsHistory :=
  samples.foldl (fun st x => collectTick consolidation_limit st.1 st.2 x) state

example :
    (runTicks 3 ([], StatsHistory.new 5) [sampleStats 1, sampleStats 2, sampleStats 3]).2.stats
      = [consolidate_all_stats [sampleStats 1, sampleStats 2, sampleStats 3], sampleStats 3] :=
  rfl

/-- Modelled from the spec: a line of a history file, as far as
`serde_json::from_str` (an external collaborator) classifies it — blank after
trimming, parsing to a snapshot, or malformed. -/
inductive RawLine where
  | blank : RawLine
  | good : AllStats → RawLine
  | bad : RawLine
deriving DecidableEq, Repr

/-- A history file: its lines plus its size in bytes (`metadata().len()`). -/
structure FsFile where
  lines : List RawLine
  bytes : ℕ
deriving DecidableEq, Repr

/-- The persistence directory: `current_stats.txt` and `old_stats.txt`, each
possibly absent. -/
structure FsState where
  current : Option FsFile
  old : Option FsFile
deriving DecidableEq, Repr

/-- Mirrors `persist_stats` of `src/stats_history.rs`: if the current file
exists and its size is at least `dir_size_limit_bytes / 2`, it is renamed over
the old file; then one serialized line is appended to the (possibly fresh)
current file.  `line_bytes` is the byte length of the serialized line plus
its newline, abstracting `serde_json::to_string` (an external collaborator).
Directory creation and I/O errors have no in-model effect. -/
def persist_stats (stats : AllStats) (line_bytes : ℕ) (dir_size_limit_bytes : ℕ)
    (fs : FsState) : FsState :=
  let fs : FsState :=
    match fs.current with
    | some f =>
        if dir_size_limit_bytes / 2 ≤ f.bytes then { current := none, old := some f }
        else fs
    | none => fs
  let cur : FsFile :=
    match fs.current with
    | some f => { lines := f.lines ++ [RawLine.good stats], bytes := f.bytes + line_bytes }
    | none => { lines := [RawLine.good stats], bytes := line_bytes }
  { fs with current := some cur }

/-- Whether a `persist_stats` call on this state rotates the current file. -/
def rotationTriggered (fs : FsState) (dir_size_limit_bytes : ℕ) : Bool :=
  match fs.current with
  | some f => dir_size_limit_bytes / 2 ≤ f.bytes
  | none => false

/-- The line loop of `add_stats_from_file`: blank lines are skipped, parsed
lines are appended, and the `?` on `serde_json::from_str` aborts with the
first malformed line. -/
def addLines : List RawLine → List AllStats → Except Unit (List AllStats)
  | [], stats => Except.ok stats
  | RawLine.blank :: rest, stats => addLines rest stats
  | RawLine.good a :: rest, stats => addLines rest (stats ++ [a])
  | RawLine.bad :: _, _ => Except.error ()

/-- Mirrors `add_stats_from_file` of `src/stats_history.rs`: a missing file
contributes nothing. -/
def add_stats_from_file (file : Option FsFile) (stats : List AllStats) :
    Except Unit (List AllStats) :=
  match file with
  | none => Except.ok stats
  | some f => addLines f.lines stats

/-- Mirrors `StatsHistory::load_from`: reads the old file, then the current
file, and rebuilds a history sized to the loaded entries (or a fresh history
of capacity 1 when nothing was loaded). -/
def StatsHistory.load_from (fs : FsState) : Except Unit StatsHistory :=
  match add_stats_from_file fs.old [] with
  | Except.error e => Except.error e
  | Except.ok stats =>
    match add_stats_from_file fs.current stats with
    | Except.error e => Except.error e
    | Except.ok stats =>
      match stats with
      | [] => Except.ok (StatsHistory.new 1)
      | _ => Except.ok
          { max_size := stats.length, stats := stats,
            most_recent_index := stats.length - 1 }

example :
    let fs1 := persist_stats (sampleStats 1) 5 10 { current := none, old := none }
    let fs2 := persist_stats (sampleStats 2) 1 10 fs1
    let fs3 := persist_stats (sampleStats 3) 1 10 fs2
    Except.map StatsHistory.stats (StatsHistory.load_from fs3)
      = Except.ok [sampleStats 1, sampleStats 2, sampleStats 3] := by rfl

/-- Modelled from the claim's words (refinement check for C2): a collector
tick that, at the consolidation threshold, calls `push` (commit) with the
consolidated snapshot and then `push` with the raw snapshot.  The source
instead calls `update_most_recent_stats` with the consolidated snapshot. -/
def claimedCollectTick (consolidation_limit : ℕ) (recent_stats : List AllStats)
    (history : StatsHistory) (new_stats : AllStats) : List AllStats × StatsHistory :=
  let recent := recent_stats ++ [new_stats]
  if consolidation_limit ≤ recent.length then
    let consolidated_stats := consolidate_all_stats recent
    let history := history.push consolidated_stats
    let history := history.push new_stats
    ([], history)
  else
    (recent, history.update_most_recent_stats new_stats)

/-- A run of consecutive claimed-behaviour ticks (see `claimedCollectTick`). -/
def claimedRunTicks (consolidation_limit : ℕ) (state : List AllStats × StatsHistory)
    (samples : List AllStats) : List AllStats × StatsHistory :=
  samples.foldl (fun st x => claimedCollectTick consolidation_limit st.1 st.2 x) state

/-- One scalar running-average step: a present value updates the average with
the 1-based position `n`, an absent value leaves it unchanged. -/
def stepO (o : Option ℚ) (n : ℕ) (acc : ℚ) : ℚ :=
  match o with
  | some v => updated_average acc v n
  | none => acc

/-- The scalar accumulation performed by the `consolidate_all_stats` loop on
one metric stream, entry number `i` (0-based) being processed with count
`i + 1`. -/
def goAvg : List (Option ℚ) → ℕ → ℚ → ℚ
  | [], _, acc => acc
  | o :: rest, i, acc => goAvg rest (i + 1) (stepO o (i + 1) acc)

/-- Field-wise restatement of `consStep`: every accumulator evolves from its
own metric stream only. -/
def consStepSpec (acc : ConsAcc) (x : AllStats) (n : ℕ) : ConsAcc :=
  { average_one_min_load_average :=
      stepO (x.general.load_averages.map LoadAverages.one_minute) n
        acc.average_one_min_load_average
    average_five_min_load_average :=
      stepO (x.general.load_averages.map LoadAverages.five_minutes) n
        acc.average_five_min_load_average
    average_fifteen_min_load_average :=
      stepO (x.general.load_averages.map LoadAverages.fifteen_minutes) n
        acc.average_fifteen_min_load_average
    average_per_logical_cpu_loads :=
      match x.cpu.per_logical_cpu_load_percent with
      | some loads => update_averages acc.average_per_logical_cpu_loads loads n
      | none => acc.average_per_logical_cpu_loads
    average_aggregate_cpu_load :=
      stepO x.cpu.aggregate_load_percent n acc.average_aggregate_cpu_load
    average_temp := stepO x.cpu.temp_celsius n acc.average_temp
    average_mem_used :=
      stepO (x.memory.map (fun m => (m.used_mb : ℚ))) n acc.average_mem_used
    max_total_mem :=
      match x.memory with
      | some m => if m.total_mb > acc.max_total_mem then m.total_mb else acc.max_total_mem
      | none => acc.max_total_mem
    average_tcp_used :=
      stepO (x.network.sockets.map (fun s => (s.tcp_in_use : ℚ))) n acc.average_tcp_used
    average_tcp_orphaned :=
      stepO (x.network.sockets.map (fun s => (s.tcp_orphaned : ℚ))) n acc.average_tcp_orphaned
    average_udp_used :=
      stepO (x.network.sockets.map (fun s => (s.udp_in_use : ℚ))) n acc.average_udp_used
    average_tcp6_used :=
      stepO (x.network.sockets.map (fun s => (s.tcp6_in_use : ℚ))) n acc.average_tcp6_used
    average_udp6_used :=
      stepO (x.network.sockets.map (fun s => (s.udp6_in_use : ℚ))) n acc.average_udp6_used }

theorem consStep_eq_spec (acc : ConsAcc) (x : AllStats) (n : ℕ) :
    consStep acc x n = consStepSpec acc x n := by
  obtain ⟨⟨u, b, la⟩, ⟨pc, agg, tc⟩, mem, fsl, ⟨ifs, sock⟩, t⟩ := x
  cases la <;> cases pc <;> cases agg <;> cases tc <;> cases mem <;> cases sock <;> rfl

/-- The arithmetic mean the claim C3 describes: an absent entry contributes
zero to the numerator but still counts in the denominator. -/
def zeroContributionMean (s : List (Option ℚ)) : ℚ :=
  ((s.map (fun o => o.getD 0)).sum) / (s.length : ℚ)

/-- Whether every absent entry of the stream comes before every present one
(the regime in which the source's skip-the-update loop agrees with
`zeroContributionMean`). -/
def absentOnlyLeading (s : List (Option ℚ)) : Bool :=
  (s.dropWhile Option.isNone).all Option.isSome

/-- The metric stream of per-logical-cpu load element `j`: absent when the
snapshot has no per-cpu loads or fewer than `j + 1` of them. -/
def cpuLoadStream (j : ℕ) (x : AllStats) : Option ℚ :=
  x.cpu.per_logical_cpu_load_percent.bind (fun loads => loads.get? j)

/-- Whether a history file line is malformed. -/
def isBadLine : RawLine → Bool
  | RawLine.bad => true
  | _ => false

/-- The snapshots of the well-formed lines, in file order. -/
def goodLines : List RawLine → List AllStats
  | [] => []
  | RawLine.good a :: rest => a :: goodLines rest
  | _ :: rest => goodLines rest

/-- The lines of a possibly missing file. -/
def fileLines : Option FsFile → List RawLine
  | none => []
  | some f => f.lines

theorem goodLines_append (l₁ l₂ : List RawLine) :
    goodLines (l₁ ++ l₂) = goodLines l₁ ++ goodLines l₂ := by
  induction l₁ with
  | nil => rfl
  | cons x rest ih => cases x <;> simp [goodLines, ih]

theorem addLines_eq (lines : List RawLine) (acc : List AllStats) :
    addLines lines acc =
      if lines.any isBadLine then Except.error () else Except.ok (acc ++ goodLines lines) := by
  induction lines generalizing acc with
  | nil => simp [addLines, goodLines]
  | cons x rest ih =>
    cases x with
    | blank => simpa [addLines, goodLines, isBadLine] using ih acc
    | good a => simp [addLines, goodLines, isBadLine, ih (acc ++ [a])]
    | bad => simp [addLines, isBadLine]

theorem add_stats_from_file_eq (file : Option FsFile) (acc : List AllStats) :
    add_stats_from_file file acc = addLines (fileLines file) acc := by
  cases file <;> rfl

/-- Claim C7: `load_from` reads the old file then the current file in that
order, skips blank lines, parses the non-blank lines independently, and any
malformed non-blank line makes the whole load an error instead of a truncated
history. -/
theorem load_from_reads_old_then_current_and_fails_on_bad (fs : FsState) :
    ((fileLines fs.old ++ fileLines fs.current).any isBadLine = true →
       StatsHistory.load_from fs = Except.error ()) ∧
    ((fileLines fs.old ++ fileLines fs.current).any isBadLine = false →
       Except.map StatsHistory.stats (StatsHistory.load_from fs)
         = Except.ok (goodLines (fileLines fs.old) ++ goodLines (fileLines fs.current))) := by
  by_cases hO : (fileLines fs.old).any isBadLine
  · refine ⟨fun _ => ?_, fun hgood => ?_⟩
    · simp [StatsHistory.load_from, add_stats_from_file_eq, addLines_eq, hO]
    · rw [List.any_append] at hgood
      simp [hO] at hgood
  · by_cases hC : (fileLines fs.current).any isBadLine
    · refine ⟨fun _ => ?_, fun hgood => ?_⟩
      · simp [StatsHistory.load_from, add_stats_from_file_eq, addLines_eq, hO, hC]
      · rw [List.any_append] at hgood
        simp [hC] at hgood
    · refine ⟨fun hbad => ?_, fun _ => ?_⟩
      · rw [List.any_append] at hbad
        simp [hO, hC] at hbad
      · simp only [StatsHistory.load_from, add_stats_from_file_eq, addLines_eq, hO, hC,
          Bool.false_eq_true, if_false, List.nil_append]
        split
        · next heq => simp [Except.map, StatsHistory.new, heq]
        · next y ys heq => simp [Except.map]

theorem load_from_reads_old_then_current_and_fails_on_bad_witness :
    let okFs : FsState :=
      { current := some { lines := [RawLine.good (sampleStats 2)], bytes := 1 },
        old := some { lines := [RawLine.blank, RawLine.good (sampleStats 1)], bytes := 2 } }
    let badFs : FsState :=
      { current := some { lines := [RawLine.good (sampleStats 2), RawLine.bad], bytes := 2 },
        old := none }
    Except.map StatsHistory.stats (StatsHistory.load_from okFs)
        = Except.ok [sampleStats 1, sampleStats 2] ∧
      StatsHistory.load_from badFs = Except.error () := by
  constructor
  · exact (load_from_reads_old_then_current_and_fails_on_bad _).2 (by decide)
  · exact (load_from_reads_old_then_current_and_fails_on_bad _).1 (by decide)

/-- Claim C4: appending snapshots `a`, `b`, `c` in that order with a size
limit that forces exactly one rotation of the current file to the old file,
then loading the directory, yields exactly `[a, b, c]` in append order.
`la`, `lb`, `lc` are the serialized byte lengths of the three lines. -/
theorem persist_roundtrip_one_rotation (a b c : AllStats) (la lb lc limit : ℕ) :
    let fs0 : FsState := { current := none, old := none }
    let fs1 := persist_stats a la limit fs0
    let fs2 := persist_stats b lb limit fs1
    let fs3 := persist_stats c lc limit fs2
    (if rotationTriggered fs0 limit then 1 else 0)
        + (if rotationTriggered fs1 limit then 1 else 0)
        + (if rotationTriggered fs2 limit then 1 else 0) = 1 →
      Except.map StatsHistory.stats (StatsHistory.load_from fs3) = Except.ok [a, b, c] := by
  intro fs0 fs1 fs2 fs3 hrot
  have hfs1 : fs1 = ⟨some ⟨[RawLine.good a], la⟩, none⟩ := rfl
  by_cases hB : limit / 2 ≤ la
  · -- rotation happens while appending `b`
    have hfs2 : fs2 = ⟨some ⟨[RawLine.good b], lb⟩, some ⟨[RawLine.good a], la⟩⟩ := by
      show persist_stats b lb limit fs1 = _
      rw [hfs1]
      simp [persist_stats, hB]
    by_cases hC : limit / 2 ≤ lb
    · exfalso
      rw [hfs1, hfs2] at hrot
      simp [rotationTriggered, hB, hC] at hrot
    · have hfs3 : fs3 = ⟨some ⟨[RawLine.good b, RawLine.good c], lb + lc⟩,
          some ⟨[RawLine.good a], la⟩⟩ := by
        show persist_stats c lc limit fs2 = _
        rw [hfs2]
        simp [persist_stats, hC]
      rw [hfs3]
      rfl
  · -- no rotation while appending `b`; the hypothesis forces one at `c`
    have hfs2 : fs2 = ⟨some ⟨[RawLine.good a, RawLine.good b], la + lb⟩, none⟩ := by
      show persist_stats b lb limit fs1 = _
      rw [hfs1]
      simp [persist_stats, hB]
    by_cases hC : limit / 2 ≤ la + lb
    · have hfs3 : fs3 = ⟨some ⟨[RawLine.good c], lc⟩,
          some ⟨[RawLine.good a, RawLine.good b], la + lb⟩⟩ := by
        show persist_stats c lc limit fs2 = _
        rw [hfs2]
        simp [persist_stats, hC]
      rw [hfs3]
      rfl
    · exfalso
      rw [hfs1, hfs2] at hrot
      simp [rotationTriggered, hB, hC] at hrot

theorem persist_roundtrip_one_rotation_witness :
    let fs0 : FsState := { current := none, old := none }
    let fs1 := persist_stats (sampleStats 1) 5 10 fs0
    let fs2 := persist_stats (sampleStats 2) 1 10 fs1
    let fs3 := persist_stats (sampleStats 3) 1 10 fs2
    ((if rotationTriggered fs0 10 then 1 else 0)
        + (if rotationTriggered fs1 10 then 1 else 0)
        + (if rotationTriggered fs2 10 then 1 else 0) = 1) ∧
      Except.map StatsHistory.stats (StatsHistory.load_from fs3)
        = Except.ok [sampleStats 1, sampleStats 2, sampleStats 3] :=
  ⟨by decide,
   persist_roundtrip_one_rotation (sampleStats 1) (sampleStats 2) (sampleStats 3) 5 1 1 10
     (by decide)⟩

/-- Counterexample to claim C5 as stated: loading an empty directory yields
zero entries but a history of capacity 1, so the capacity does not equal the
number of loaded entries on every load. -/
theorem load_from_capacity_counterexample :
    Except.map StatsHistory.max_size (StatsHistory.load_from { current := none, old := none })
        = Except.ok 1 ∧
      Except.map (fun h => h.stats.length)
          (StatsHistory.load_from { current := none, old := none }) = Except.ok 0 ∧
      (1 : ℕ) ≠ 0 :=
  ⟨rfl, rfl, by decide⟩

/-- Claim C5, amended: whenever `load_from` succeeds with at least one loaded
entry, the rebuilt history's capacity equals the number of loaded entries,
its `most_recent_index` is the last position, and the most recent entry is
the last loaded one.  (On zero loaded entries the source instead returns a
fresh empty history of capacity 1.) -/
theorem load_from_capacity_eq_loaded_count (fs : FsState) (h : StatsHistory)
    (hload : StatsHistory.load_from fs = Except.ok h) (hne : h.stats ≠ []) :
    h.max_size = h.stats.length ∧ h.most_recent_index = h.stats.length - 1 ∧
      h.get_most_recent_stats = h.stats.getLast? := by
  unfold StatsHistory.load_from at hload
  rcases h1 : add_stats_from_file fs.old [] with e | stats1
  · rw [h1] at hload
    exact absurd hload (by simp)
  · rw [h1] at hload
    dsimp only at hload
    rcases h2 : add_stats_from_file fs.current stats1 with e | stats2
    · rw [h2] at hload
      exact absurd hload (by simp)
    · rw [h2] at hload
      dsimp only at hload
      match hstats : stats2 with
      | [] =>
        simp only [Except.ok.injEq] at hload
        rw [← hload] at hne
        exact absurd rfl hne
      | y :: ys =>
        simp only [Except.ok.injEq] at hload
        subst hload
        refine ⟨rfl, rfl, ?_⟩
        simp only [StatsHistory.get_most_recent_stats, List.isEmpty_cons, Bool.false_eq_true,
          if_false]
        rw [List.getLast?_eq_getElem?]
        simp only [List.length_cons]
        rw [List.getD_eq_getElem?_getD]
        have hlt : ys.length + 1 - 1 < (y :: ys).length := by simp
        rw [List.getElem?_eq_getElem hlt]
        simp

theorem load_from_capacity_eq_loaded_count_witness :
    let h : StatsHistory :=
      { max_size := 2, stats := [sampleStats 1, sampleStats 2], most_recent_index := 1 }
    h.max_size = h.stats.length ∧ h.most_recent_index = h.stats.length - 1 ∧
      h.get_most_recent_stats = h.stats.getLast? :=
  load_from_capacity_eq_loaded_count
    ⟨some ⟨[RawLine.good (sampleStats 1), RawLine.good (sampleStats 2)], 2⟩, none⟩
    ⟨2, [sampleStats 1, sampleStats 2], 1⟩ (by rfl) (by decide)

/-- Counterexample to claim C6 as stated: on an empty history,
`update_most_recent_stats` (replaceMostRecent) does change the storage
length — it behaves as a commit. -/
theorem update_most_recent_on_empty_counterexample :
    ((StatsHistory.new 3).update_most_recent_stats (sampleStats 1)).stats.length ≠
      (StatsHistory.new 3).stats.length := by
  decide

/-- Claim C6, amended: `update_most_recent_stats` never changes the storage
length on a non-empty history, and on an empty history (of positive
capacity, as `max_size` is a `NonZeroUsize`) it grows it to exactly 1;
`push` changes the length by at most 1 — by 0 when the storage length is at
capacity, and by exactly 1 otherwise. -/
theorem history_mutation_length_frame (h : StatsHistory) (x : AllStats) :
    (h.stats ≠ [] → (h.update_most_recent_stats x).stats.length = h.stats.length) ∧
    (h.stats = [] → 0 < h.max_size → (h.update_most_recent_stats x).stats.length = 1) ∧
    (h.stats.length = h.max_size → (h.push x).stats.length = h.stats.length) ∧
    (h.stats.length ≠ h.max_size → (h.push x).stats.length = h.stats.length + 1) := by
  refine ⟨?_, ?_, ?_, ?_⟩
  · intro hne
    simp [StatsHistory.update_most_recent_stats, List.isEmpty_iff, hne]
  · intro hempty hpos
    have h0 : ¬((0 : ℕ) = h.max_size) := by omega
    simp [StatsHistory.update_most_recent_stats, List.isEmpty_iff, hempty, StatsHistory.push,
      h0]
  · intro hfull
    simp [StatsHistory.push, hfull]
  · intro hnotfull
    simp [StatsHistory.push, hnotfull]

theorem goAvg_all_none (s : List (Option ℚ)) (h : ∀ o ∈ s, o = none) :
    ∀ (i : ℕ) (acc : ℚ), goAvg s i acc = acc := by
  induction s with
  | nil => intro i acc; rfl
  | cons o rest ih =>
    intro i acc
    have ho : o = none := h o (by simp)
    rw [ho]
    show goAvg rest (i + 1) (stepO none (i + 1) acc) = acc
    exact ih (fun o hm => h o (by simp [hm])) (i + 1) acc

theorem goAvg_append_none (a : List (Option ℚ)) (h : ∀ o ∈ a, o = none)
    (r : List (Option ℚ)) :
    ∀ (i : ℕ) (acc : ℚ), goAvg (a ++ r) i acc = goAvg r (i + a.length) acc := by
  induction a with
  | nil => intro i acc; simp [goAvg]
  | cons o rest ih =>
    intro i acc
    have ho : o = none := h o (by simp)
    rw [List.cons_append, ho]
    show goAvg (rest ++ r) (i + 1) acc = _
    rw [ih (fun o hm => h o (by simp [hm])) (i + 1) acc]
    congr 1
    simp only [List.length_cons]
    omega

theorem sum_getD_all_none (a : List (Option ℚ)) (h : ∀ o ∈ a, o = none) :
    (a.map (fun o => o.getD 0)).sum = 0 := by
  induction a with
  | nil => rfl
  | cons o rest ih =>
    have ho : o = none := h o (by simp)
    simp [ho, ih (fun o hm => h o (by simp [hm]))]

theorem goAvg_all_some (s : List (Option ℚ)) (h : ∀ o ∈ s, o.isSome) :
    ∀ (j : ℕ), 1 ≤ j → ∀ (acc : ℚ),
      goAvg s j acc = (acc * j + (s.map (fun o => o.getD 0)).sum) / ((j : ℚ) + s.length) := by
  induction s with
  | nil =>
    intro j hj acc
    have hj0 : ((j : ℚ)) ≠ 0 := Nat.cast_ne_zero.mpr (by omega)
    simp [goAvg]
    field_simp
  | cons o rest ih =>
    intro j hj acc
    rcases Option.isSome_iff_exists.mp (h o (by simp)) with ⟨v, rfl⟩
    show goAvg rest (j + 1) (stepO (some v) (j + 1) acc) = _
    rw [ih (fun o hm => h o (by simp [hm])) (j + 1) (by omega)]
    have hj0 : ((j : ℚ)) + 1 ≠ 0 := by positivity
    have hd1 : ((j : ℚ)) + 1 + (rest.length : ℚ) ≠ 0 := by positivity
    have hd2 : ((j : ℚ)) + ((rest.length : ℚ) + 1) ≠ 0 := by positivity
    simp only [stepO, updated_average, List.map_cons, List.sum_cons, List.length_cons]
    push_cast
    rw [div_eq_div_iff hd1 hd2]
    field_simp
    ring

theorem goAvg_absent_leading_eq_mean (s : List (Option ℚ))
    (hcond : absentOnlyLeading s = true) : goAvg s 0 0 = zeroContributionMean s := by
  have hsplit : s.takeWhile Option.isNone ++ s.dropWhile Option.isNone = s :=
    List.takeWhile_append_dropWhile Option.isNone s
  have ha : ∀ o ∈ s.takeWhile Option.isNone, o = none := by
    intro o hm
    exact Option.isNone_iff_eq_none.mp (List.mem_takeWhile_imp hm)
  have hr : ∀ o ∈ s.dropWhile Option.isNone, o.isSome := by
    intro o hm
    exact List.all_eq_true.mp hcond o hm
  rw [← hsplit, goAvg_append_none _ ha _ 0 0]
  rcases hdrop : s.dropWhile Option.isNone with _ | ⟨o, t⟩
  · simp only [goAvg, zeroContributionMean, List.append_nil]
    rw [sum_getD_all_none _ ha]
    simp
  · rw [hdrop] at hr
    rcases Option.isSome_iff_exists.mp (hr o (by simp)) with ⟨v, rfl⟩
    show goAvg t (0 + (s.takeWhile Option.isNone).length + 1)
        (stepO (some v) (0 + (s.takeWhile Option.isNone).length + 1) 0)
      = _
    rw [goAvg_all_some t (fun o hmem => hr o (by simp [hmem]))
      (0 + (s.takeWhile Option.isNone).length + 1) (by omega)]
    simp only [zeroContributionMean, List.map_append, List.sum_append,
      List.map_cons, List.sum_cons, List.length_append, List.length_cons,
      sum_getD_all_none _ ha, stepO, updated_average]
    have h2 : ((0 + (s.takeWhile Option.isNone).length + 1 : ℕ) : ℚ) + (t.length : ℚ) ≠ 0 := by
      positivity
    have h3 : (((s.takeWhile Option.isNone).length : ℚ)) + ((t.length : ℚ) + 1) ≠ 0 := by
      positivity
    push_cast at h2 h3 ⊢
    rw [div_eq_div_iff h2 h3]
    field_simp
    exact Or.inl (by ring)

theorem goAvg_const_some (v : ℚ) (s : List (Option ℚ)) (h : ∀ o ∈ s, o = some v) :
    ∀ (i : ℕ), goAvg s i v = v := by
  induction s with
  | nil => intro i; rfl
  | cons o rest ih =>
    intro i
    have ho : o = some v := h o (by simp)
    rw [ho]
    show goAvg rest (i + 1) (stepO (some v) (i + 1) v) = v
    have hstep : stepO (some v) (i + 1) v = v := by
      simp [stepO, updated_average]
    rw [hstep]
    exact ih (fun o hm => h o (by simp [hm])) (i + 1)

theorem goAvg_replicate_some (v : ℚ) (n : ℕ) (hn : 1 ≤ n) :
    goAvg (List.replicate n (some v)) 0 0 = v := by
  rcases n with _ | m
  · omega
  · rw [List.replicate_succ]
    show goAvg (List.replicate m (some v)) 1 (stepO (some v) 1 0) = v
    have hstep : stepO (some v) 1 0 = v := by
      simp [stepO, updated_average]
    rw [hstep]
    exact goAvg_const_some v _ (fun o hm => (List.eq_of_mem_replicate hm)) 1

theorem update_averages_nil_one (new_values : List ℚ) :
    update_averages [] new_values 1 = new_values := by
  induction new_values with
  | nil => rfl
  | cons v vt ih => simp [update_averages, ih]

theorem update_averages_self (l : List ℚ) (n : ℕ) : update_averages l l n = l := by
  induction l with
  | nil => rfl
  | cons a t ih => simp [update_averages, ih]

theorem update_averages_getD (new_values : List ℚ) :
    ∀ (self : List ℚ) (n j : ℕ),
      (update_averages self new_values n).getD j 0 =
        match new_values.get? j with
        | some v => updated_average (self.getD j 0) v n
        | none => self.getD j 0 := by
  induction new_values with
  | nil => intro self n j; cases self <;> rfl
  | cons v vt ih =>
    intro self n j
    cases self with
    | nil =>
      cases j with
      | zero => rfl
      | succ j =>
        show (update_averages [] vt n).getD j 0 = _
        rw [ih [] n j]
        rfl
    | cons a st =>
      cases j with
      | zero => rfl
      | succ j =>
        show (update_averages st vt n).getD j 0 = _
        rw [ih st n j]
        rfl

theorem consFold_proj (p : ConsAcc → ℚ) (e : AllStats → Option ℚ)
    (hstep : ∀ (acc : ConsAcc) (x : AllStats) (n : ℕ),
      p (consStepSpec acc x n) = stepO (e x) n (p acc)) :
    ∀ (l : List AllStats) (i : ℕ) (acc : ConsAcc),
      p (consFold l i acc) = goAvg (l.map e) i (p acc) := by
  intro l
  induction l with
  | nil => intro i acc; rfl
  | cons x rest ih =>
    intro i acc
    show p (consFold rest (i + 1) (consStep acc x (i + 1)))
      = goAvg (e x :: rest.map e) i (p acc)
    rw [consStep_eq_spec, ih (i + 1) (consStepSpec acc x (i + 1)), hstep]
    rfl

theorem consStepSpec_perCpu_getD (acc : ConsAcc) (x : AllStats) (n j : ℕ) :
    (consStepSpec acc x n).average_per_logical_cpu_loads.getD j 0 =
      stepO (cpuLoadStream j x) n (acc.average_per_logical_cpu_loads.getD j 0) := by
  cases hpc : x.cpu.per_logical_cpu_load_percent with
  | none => simp [consStepSpec, hpc, cpuLoadStream, stepO]
  | some loads =>
    simp only [consStepSpec, hpc, cpuLoadStream, Option.some_bind]
    rw [update_averages_getD]
    cases hget : loads.get? j <;> simp [stepO, hget]

theorem consFold_perCpu_getD (j : ℕ) :
    ∀ (l : List AllStats) (i : ℕ) (acc : ConsAcc),
      (consFold l i acc).average_per_logical_cpu_loads.getD j 0 =
        goAvg (l.map (cpuLoadStream j)) i
          (acc.average_per_logical_cpu_loads.getD j 0) := by
  intro l
  induction l with
  | nil => intro i acc; rfl
  | cons x rest ih =>
    intro i acc
    show (consFold rest (i + 1)
        (consStep acc x (i + 1))).average_per_logical_cpu_loads.getD j 0
      = goAvg (cpuLoadStream j x :: rest.map (cpuLoadStream j)) i
          (acc.average_per_logical_cpu_loads.getD j 0)
    rw [consStep_eq_spec, ih (i + 1) _, consStepSpec_perCpu_getD]
    rfl

theorem consFold_perCpu_all_none (l : List AllStats)
    (h : ∀ x ∈ l, x.cpu.per_logical_cpu_load_percent = none) :
    ∀ (i : ℕ) (acc : ConsAcc),
      (consFold l i acc).average_per_logical_cpu_loads
        = acc.average_per_logical_cpu_loads := by
  induction l with
  | nil => intro i acc; rfl
  | cons x rest ih =>
    intro i acc
    show (consFold rest (i + 1) (consStep acc x (i + 1))).average_per_logical_cpu_loads = _
    rw [consStep_eq_spec, ih (fun y hm => h y (by simp [hm])) (i + 1)]
    simp [consStepSpec, h x (by simp)]

theorem consFold_maxTotal_all_none (l : List AllStats)
    (h : ∀ x ∈ l, x.memory = none) :
    ∀ (i : ℕ) (acc : ConsAcc), (consFold l i acc).max_total_mem = acc.max_total_mem := by
  induction l with
  | nil => intro i acc; rfl
  | cons x rest ih =>
    intro i acc
    show (consFold rest (i + 1) (consStep acc x (i + 1))).max_total_mem = _
    rw [consStep_eq_spec, ih (fun y hm => h y (by simp [hm])) (i + 1)]
    simp [consStepSpec, h x (by simp)]

theorem consFold_perCpu_replicate (x : AllStats) (loads : List ℚ)
    (hx : x.cpu.per_logical_cpu_load_percent = some loads) :
    ∀ (m i : ℕ) (acc : ConsAcc), acc.average_per_logical_cpu_loads = loads →
      (consFold (List.replicate m x) i acc).average_per_logical_cpu_loads = loads := by
  intro m
  induction m with
  | zero => intro i acc hacc; exact hacc
  | succ m ih =>
    intro i acc hacc
    rw [List.replicate_succ]
    show (consFold (List.replicate m x) (i + 1)
        (consStep acc x (i + 1))).average_per_logical_cpu_loads = loads
    apply ih
    rw [consStep_eq_spec]
    simp [consStepSpec, hx, hacc, update_averages_self]

theorem consFold_maxTotal_replicate (x : AllStats) (mem : MemoryStats)
    (hx : x.memory = some mem) :
    ∀ (m i : ℕ) (acc : ConsAcc), acc.max_total_mem = mem.total_mb →
      (consFold (List.replicate m x) i acc).max_total_mem = mem.total_mb := by
  intro m
  induction m with
  | zero => intro i acc hacc; exact hacc
  | succ m ih =>
    intro i acc hacc
    rw [List.replicate_succ]
    show (consFold (List.replicate m x) (i + 1) (consStep acc x (i + 1))).max_total_mem
      = mem.total_mb
    apply ih
    rw [consStep_eq_spec]
    simp only [consStepSpec, hx, hacc]
    split <;> omega

theorem consStepSpec_memUsed (acc : ConsAcc) (x : AllStats) (n : ℕ) :
    (consStepSpec acc x n).average_mem_used
      = stepO (x.memory.map (fun mm => (mm.used_mb : ℚ))) n acc.average_mem_used := rfl

theorem consStepSpec_tcp (acc : ConsAcc) (x : AllStats) (n : ℕ) :
    (consStepSpec acc x n).average_tcp_used
      = stepO (x.network.sockets.map (fun s => (s.tcp_in_use : ℚ))) n
          acc.average_tcp_used := rfl

theorem consStepSpec_tcpOrphaned (acc : ConsAcc) (x : AllStats) (n : ℕ) :
    (consStepSpec acc x n).average_tcp_orphaned
      = stepO (x.network.sockets.map (fun s => (s.tcp_orphaned : ℚ))) n
          acc.average_tcp_orphaned := rfl

theorem consStepSpec_udp (acc : ConsAcc) (x : AllStats) (n : ℕ) :
    (consStepSpec acc x n).average_udp_used
      = stepO (x.network.sockets.map (fun s => (s.udp_in_use : ℚ))) n
          acc.average_udp_used := rfl

theorem consStepSpec_tcp6 (acc : ConsAcc) (x : AllStats) (n : ℕ) :
    (consStepSpec acc x n).average_tcp6_used
      = stepO (x.network.sockets.map (fun s => (s.tcp6_in_use : ℚ))) n
          acc.average_tcp6_used := rfl

theorem consStepSpec_udp6 (acc : ConsAcc) (x : AllStats) (n : ℕ) :
    (consStepSpec acc x n).average_udp6_used
      = stepO (x.network.sockets.map (fun s => (s.udp6_in_use : ℚ))) n
          acc.average_udp6_used := rfl

theorem rustRound_natCast (k : ℕ) : rustRound (k : ℚ) = k := by
  unfold rustRound
  rw [if_pos (by positivity)]
  rw [Int.floor_eq_iff]
  constructor
  · push_cast
    linarith
  · push_cast
    linarith

theorem roundToNat_natCast (k : ℕ) : roundToNat (k : ℚ) = k := by
  unfold roundToNat
  rw [rustRound_natCast]
  exact Int.toNat_natCast k

theorem roundToNat_zero : roundToNat 0 = 0 := by
  have h := roundToNat_natCast 0
  simpa using h

/-- Claim C9: consolidating a batch of `n ≥ 1` identical snapshots whose
averaged metrics are all present yields those same values for every averaged
field. -/
theorem consolidate_uniform_batch_idempotent (n : ℕ) (hn : 1 ≤ n) (x : AllStats)
    (la : LoadAverages) (hla : x.general.load_averages = some la)
    (loads : List ℚ) (hpc : x.cpu.per_logical_cpu_load_percent = some loads)
    (agg : ℚ) (hagg : x.cpu.aggregate_load_percent = some agg)
    (temp : ℚ) (htemp : x.cpu.temp_celsius = some temp)
    (mem : MemoryStats) (hmem : x.memory = some mem)
    (sock : SocketStats) (hsock : x.network.sockets = some sock) :
    (consolidate_all_stats (List.replicate n x)).general.load_averages = some la ∧
    (consolidate_all_stats (List.replicate n x)).cpu.per_logical_cpu_load_percent
      = some loads ∧
    (consolidate_all_stats (List.replicate n x)).cpu.aggregate_load_percent = some agg ∧
    (consolidate_all_stats (List.replicate n x)).cpu.temp_celsius = some temp ∧
    (consolidate_all_stats (List.replicate n x)).memory = some mem ∧
    (consolidate_all_stats (List.replicate n x)).network.sockets = some sock := by
  obtain ⟨m, rfl⟩ : ∃ m, n = m + 1 := ⟨n - 1, by omega⟩
  obtain ⟨one, five, fifteen⟩ := la
  obtain ⟨used, total⟩ := mem
  obtain ⟨tcp, tcpO, udp, tcp6, udp6⟩ := sock
  have hlast : (List.replicate (m + 1) x).getLast? = some x := by
    rw [List.replicate_succ']
    exact List.getLast?_concat _
  have hfold : consFold (List.replicate (m + 1) x) 0 initConsAcc
      = consFold (List.replicate m x) 1 (consStep initConsAcc x 1) := by
    rw [List.replicate_succ]
    rfl
  have hOne : (consFold (List.replicate (m + 1) x) 0 initConsAcc).average_one_min_load_average
      = one := by
    rw [consFold_proj (fun a => a.average_one_min_load_average)
      (fun y => y.general.load_averages.map LoadAverages.one_minute) (fun _ _ _ => rfl)]
    simp only [List.map_replicate, hla]
    exact goAvg_replicate_some one (m + 1) (by omega)
  have hFive : (consFold (List.replicate (m + 1) x) 0 initConsAcc).average_five_min_load_average
      = five := by
    rw [consFold_proj (fun a => a.average_five_min_load_average)
      (fun y => y.general.load_averages.map LoadAverages.five_minutes) (fun _ _ _ => rfl)]
    simp only [List.map_replicate, hla]
    exact goAvg_replicate_some five (m + 1) (by omega)
  have hFifteen :
      (consFold (List.replicate (m + 1) x) 0 initConsAcc).average_fifteen_min_load_average
        = fifteen := by
    rw [consFold_proj (fun a => a.average_fifteen_min_load_average)
      (fun y => y.general.load_averages.map LoadAverages.fifteen_minutes) (fun _ _ _ => rfl)]
    simp only [List.map_replicate, hla]
    exact goAvg_replicate_some fifteen (m + 1) (by omega)
  have hPC : (consFold (List.replicate (m + 1) x) 0 initConsAcc).average_per_logical_cpu_loads
      = loads := by
    rw [hfold]
    apply consFold_perCpu_replicate x loads hpc m 1
    rw [consStep_eq_spec]
    simp [consStepSpec, hpc, initConsAcc, update_averages_nil_one]
  have hAgg : (consFold (List.replicate (m + 1) x) 0 initConsAcc).average_aggregate_cpu_load
      = agg := by
    rw [consFold_proj (fun a => a.average_aggregate_cpu_load)
      (fun y => y.cpu.aggregate_load_percent) (fun _ _ _ => rfl)]
    simp only [List.map_replicate, hagg]
    exact goAvg_replicate_some agg (m + 1) (by omega)
  have hTemp : (consFold (List.replicate (m + 1) x) 0 initConsAcc).average_temp = temp := by
    rw [consFold_proj (fun a => a.average_temp) (fun y => y.cpu.temp_celsius)
      (fun _ _ _ => rfl)]
    simp only [List.map_replicate, htemp]
    exact goAvg_replicate_some temp (m + 1) (by omega)
  have hUsed : (consFold (List.replicate (m + 1) x) 0 initConsAcc).average_mem_used
      = (used : ℚ) := by
    rw [consFold_proj (fun a => a.average_mem_used)
      (fun y => y.memory.map (fun mm => (mm.used_mb : ℚ))) consStepSpec_memUsed]
    simp only [List.map_replicate, hmem]
    exact goAvg_replicate_some (used : ℚ) (m + 1) (by omega)
  have hMax : (consFold (List.replicate (m + 1) x) 0 initConsAcc).max_total_mem = total := by
    rw [hfold]
    apply consFold_maxTotal_replicate x ⟨used, total⟩ hmem m 1
    rw [consStep_eq_spec]
    simp only [consStepSpec, hmem, initConsAcc]
    split <;> omega
  have hTcp : (consFold (List.replicate (m + 1) x) 0 initConsAcc).average_tcp_used
      = (tcp : ℚ) := by
    rw [consFold_proj (fun a => a.average_tcp_used)
      (fun y => y.network.sockets.map (fun s => (s.tcp_in_use : ℚ))) consStepSpec_tcp]
    simp only [List.map_replicate, hsock]
    exact goAvg_replicate_some (tcp : ℚ) (m + 1) (by omega)
  have hTcpO : (consFold (List.replicate (m + 1) x) 0 initConsAcc).average_tcp_orphaned
      = (tcpO : ℚ) := by
    rw [consFold_proj (fun a => a.average_tcp_orphaned)
      (fun y => y.network.sockets.map (fun s => (s.tcp_orphaned : ℚ))) consStepSpec_tcpOrphaned]
    simp only [List.map_replicate, hsock]
    exact goAvg_replicate_some (tcpO : ℚ) (m + 1) (by omega)
  have hUdp : (consFold (List.replicate (m + 1) x) 0 initConsAcc).average_udp_used
      = (udp : ℚ) := by
    rw [consFold_proj (fun a => a.average_udp_used)
      (fun y => y.network.sockets.map (fun s => (s.udp_in_use : ℚ))) consStepSpec_udp]
    simp only [List.map_replicate, hsock]
    exact goAvg_replicate_some (udp : ℚ) (m + 1) (by omega)
  have hTcp6 : (consFold (List.replicate (m + 1) x) 0 initConsAcc).average_tcp6_used
      = (tcp6 : ℚ) := by
    rw [consFold_proj (fun a => a.average_tcp6_used)
      (fun y => y.network.sockets.map (fun s => (s.tcp6_in_use : ℚ))) consStepSpec_tcp6]
    simp only [List.map_replicate, hsock]
    exact goAvg_replicate_some (tcp6 : ℚ) (m + 1) (by omega)
  have hUdp6 : (consFold (List.replicate (m + 1) x) 0 initConsAcc).average_udp6_used
      = (udp6 : ℚ) := by
    rw [consFold_proj (fun a => a.average_udp6_used)
      (fun y => y.network.sockets.map (fun s => (s.udp6_in_use : ℚ))) consStepSpec_udp6]
    simp only [List.map_replicate, hsock]
    exact goAvg_replicate_some (udp6 : ℚ) (m + 1) (by omega)
  refine ⟨?_, ?_, ?_, ?_, ?_, ?_⟩
  · simp only [consolidate_all_stats, hlast]
    rw [hOne, hFive, hFifteen]
  · simp only [consolidate_all_stats, hlast]
    rw [hPC]
  · simp only [consolidate_all_stats, hlast]
    rw [hAgg]
  · simp only [consolidate_all_stats, hlast]
    rw [hTemp]
  · simp only [consolidate_all_stats, hlast]
    rw [hUsed, hMax, roundToNat_natCast]
  · simp only [consolidate_all_stats, hlast]
    rw [hTcp, hTcpO, hUdp, hTcp6, hUdp6, roundToNat_natCast, roundToNat_natCast,
      roundToNat_natCast, roundToNat_natCast, roundToNat_natCast]

theorem consolidate_uniform_batch_idempotent_witness :
    let x : AllStats :=
      { general := { uptime_seconds := some 5, boot_timestamp := some 7,
                     load_averages := some ⟨1, 2, 3⟩ },
        cpu := { per_logical_cpu_load_percent := some [10, 20],
                 aggregate_load_percent := some 15, temp_celsius := some 40 },
        memory := some ⟨6, 8⟩,
        filesystems := none,
        network := { interfaces := none, sockets := some ⟨1, 2, 3, 4, 5⟩ },
        collection_time := 9 }
    (consolidate_all_stats (List.replicate 2 x)).general.load_averages = some ⟨1, 2, 3⟩ ∧
    (consolidate_all_stats (List.replicate 2 x)).cpu.per_logical_cpu_load_percent
      = some [10, 20] ∧
    (consolidate_all_stats (List.replicate 2 x)).cpu.aggregate_load_percent = some 15 ∧
    (consolidate_all_stats (List.replicate 2 x)).cpu.temp_celsius = some 40 ∧
    (consolidate_all_stats (List.replicate 2 x)).memory = some ⟨6, 8⟩ ∧
    (consolidate_all_stats (List.replicate 2 x)).network.sockets = some ⟨1, 2, 3, 4, 5⟩ :=
  consolidate_uniform_batch_idempotent 2 (by decide) _ ⟨1, 2, 3⟩ rfl [10, 20] rfl 15 rfl
    40 rfl ⟨6, 8⟩ rfl ⟨1, 2, 3, 4, 5⟩ rfl

theorem map_stream_none {β : Type} (l : List AllStats) (g : AllStats → Option β)
    (h : ∀ x ∈ l, g x = none) : ∀ o ∈ l.map g, o = (none : Option β) := by
  intro o ho
  rcases List.mem_map.mp ho with ⟨x, hx, rfl⟩
  exact h x hx

/-- Claim C10: for every non-empty batch, the consolidated snapshot has every
averaged field present (`some`), and when a metric was absent from every
input the field holds zero values rather than `none`. -/
theorem consolidate_output_fields_present (l : List AllStats) (hne : l ≠ []) :
    ((consolidate_all_stats l).general.load_averages.isSome = true ∧
     (consolidate_all_stats l).cpu.per_logical_cpu_load_percent.isSome = true ∧
     (consolidate_all_stats l).cpu.aggregate_load_percent.isSome = true ∧
     (consolidate_all_stats l).cpu.temp_celsius.isSome = true ∧
     (consolidate_all_stats l).memory.isSome = true ∧
     (consolidate_all_stats l).network.sockets.isSome = true) ∧
    ((∀ x ∈ l, x.general.load_averages = none) →
       (consolidate_all_stats l).general.load_averages = some ⟨0, 0, 0⟩) ∧
    ((∀ x ∈ l, x.cpu.per_logical_cpu_load_percent = none) →
       (consolidate_all_stats l).cpu.per_logical_cpu_load_percent = some []) ∧
    ((∀ x ∈ l, x.cpu.aggregate_load_percent = none) →
       (consolidate_all_stats l).cpu.aggregate_load_percent = some 0) ∧
    ((∀ x ∈ l, x.cpu.temp_celsius = none) →
       (consolidate_all_stats l).cpu.temp_celsius = some 0) ∧
    ((∀ x ∈ l, x.memory = none) → (consolidate_all_stats l).memory = some ⟨0, 0⟩) ∧
    ((∀ x ∈ l, x.network.sockets = none) →
       (consolidate_all_stats l).network.sockets = some ⟨0, 0, 0, 0, 0⟩) := by
  rcases hl : l.getLast? with _ | last
  · exact absurd (List.getLast?_eq_none_iff.mp hl) hne
  · refine ⟨⟨?_, ?_, ?_, ?_, ?_, ?_⟩, ?_, ?_, ?_, ?_, ?_, ?_⟩
    · simp [consolidate_all_stats, hl]
    · simp [consolidate_all_stats, hl]
    · simp [consolidate_all_stats, hl]
    · simp [consolidate_all_stats, hl]
    · simp [consolidate_all_stats, hl]
    · simp [consolidate_all_stats, hl]
    · intro habs
      simp only [consolidate_all_stats, hl]
      have h1 := consFold_proj (fun a => a.average_one_min_load_average)
        (fun y => y.general.load_averages.map LoadAverages.one_minute)
        (fun _ _ _ => rfl) l 0 initConsAcc
      have h2 := consFold_proj (fun a => a.average_five_min_load_average)
        (fun y => y.general.load_averages.map LoadAverages.five_minutes)
        (fun _ _ _ => rfl) l 0 initConsAcc
      have h3 := consFold_proj (fun a => a.average_fifteen_min_load_average)
        (fun y => y.general.load_averages.map LoadAverages.fifteen_minutes)
        (fun _ _ _ => rfl) l 0 initConsAcc
      rw [goAvg_all_none _ (map_stream_none l _ (fun x hx => by rw [habs x hx]; rfl))] at h1
      rw [goAvg_all_none _ (map_stream_none l _ (fun x hx => by rw [habs x hx]; rfl))] at h2
      rw [goAvg_all_none _ (map_stream_none l _ (fun x hx => by rw [habs x hx]; rfl))] at h3
      rw [h1, h2, h3]
      rfl
    · intro habs
      simp only [consolidate_all_stats, hl]
      rw [consFold_perCpu_all_none l habs 0 initConsAcc]
      rfl
    · intro habs
      simp only [consolidate_all_stats, hl]
      have h1 := consFold_proj (fun a => a.average_aggregate_cpu_load)
        (fun y => y.cpu.aggregate_load_percent) (fun _ _ _ => rfl) l 0 initConsAcc
      rw [goAvg_all_none _ (map_stream_none l _ habs)] at h1
      rw [h1]
      rfl
    · intro habs
      simp only [consolidate_all_stats, hl]
      have h1 := consFold_proj (fun a => a.average_temp)
        (fun y => y.cpu.temp_celsius) (fun _ _ _ => rfl) l 0 initConsAcc
      rw [goAvg_all_none _ (map_stream_none l _ habs)] at h1
      rw [h1]
      rfl
    · intro habs
      simp only [consolidate_all_stats, hl]
      have h1 := consFold_proj (fun a => a.average_mem_used)
        (fun y => y.memory.map (fun mm => (mm.used_mb : ℚ))) consStepSpec_memUsed
        l 0 initConsAcc
      rw [goAvg_all_none _ (map_stream_none l _ (fun x hx => by rw [habs x hx]; rfl))] at h1
      rw [h1, consFold_maxTotal_all_none l habs 0 initConsAcc]
      simp [initConsAcc, roundToNat_zero]
    · intro habs
      simp only [consolidate_all_stats, hl]
      have h1 := consFold_proj (fun a => a.average_tcp_used)
        (fun y => y.network.sockets.map (fun s => (s.tcp_in_use : ℚ))) consStepSpec_tcp
        l 0 initConsAcc
      have h2 := consFold_proj (fun a => a.average_tcp_orphaned)
        (fun y => y.network.sockets.map (fun s => (s.tcp_orphaned : ℚ)))
        consStepSpec_tcpOrphaned l 0 initConsAcc
      have h3 := consFold_proj (fun a => a.average_udp_used)
        (fun y => y.network.sockets.map (fun s => (s.udp_in_use : ℚ))) consStepSpec_udp
        l 0 initConsAcc
      have h4 := consFold_proj (fun a => a.average_tcp6_used)
        (fun y => y.network.sockets.map (fun s => (s.tcp6_in_use : ℚ))) consStepSpec_tcp6
        l 0 initConsAcc
      have h5 := consFold_proj (fun a => a.average_udp6_used)
        (fun y => y.network.sockets.map (fun s => (s.udp6_in_use : ℚ))) consStepSpec_udp6
        l 0 initConsAcc
      rw [goAvg_all_none _ (map_stream_none l _ (fun x hx => by rw [habs x hx]; rfl))] at h1
      rw [goAvg_all_none _ (map_stream_none l _ (fun x hx => by rw [habs x hx]; rfl))] at h2
      rw [goAvg_all_none _ (map_stream_none l _ (fun x hx => by rw [habs x hx]; rfl))] at h3
      rw [goAvg_all_none _ (map_stream_none l _ (fun x hx => by rw [habs x hx]; rfl))] at h4
      rw [goAvg_all_none _ (map_stream_none l _ (fun x hx => by rw [habs x hx]; rfl))] at h5
      rw [h1, h2, h3, h4, h5]
      simp [initConsAcc, roundToNat_zero]

theorem consolidate_output_fields_present_witness :
    ([sampleStats 1] ≠ []) ∧
      (consolidate_all_stats [sampleStats 1]).general.load_averages = some ⟨0, 0, 0⟩ ∧
      (consolidate_all_stats [sampleStats 1]).memory = some ⟨0, 0⟩ ∧
      (consolidate_all_stats [sampleStats 1]).network.sockets = some ⟨0, 0, 0, 0, 0⟩ :=
  ⟨by decide,
   (consolidate_output_fields_present [sampleStats 1] (by decide)).2.1
     (by intro x hx; simp at hx; rw [hx]; rfl),
   (consolidate_output_fields_present [sampleStats 1] (by decide)).2.2.2.2.2.1
     (by intro x hx; simp at hx; rw [hx]; rfl),
   (consolidate_output_fields_present [sampleStats 1] (by decide)).2.2.2.2.2.2
     (by intro x hx; simp at hx; rw [hx]; rfl)⟩

/-- Sample snapshot carrying only memory and socket statistics. -/
def memSockStats (t : ℤ) (used total tcp : ℕ) : AllStats :=
  { general := { uptime_seconds := none, boot_timestamp := none, load_averages := none },
    cpu := { per_logical_cpu_load_percent := none, aggregate_load_percent := none,
             temp_celsius := none },
    memory := some { used_mb := used, total_mb := total },
    filesystems := none,
    network := { interfaces := none,
                 sockets := some { tcp_in_use := tcp, tcp_orphaned := 0, udp_in_use := 0,
                                   tcp6_in_use := 0, udp6_in_use := 0 } },
    collection_time := t }

/-- Sample snapshot carrying only an aggregate CPU load. -/
def onlyAggStats (t : ℤ) (q : ℚ) : AllStats :=
  { general := { uptime_seconds := none, boot_timestamp := none, load_averages := none },
    cpu := { per_logical_cpu_load_percent := none, aggregate_load_percent := some q,
             temp_celsius := none },
    memory := none,
    filesystems := none,
    network := { interfaces := none, sockets := none },
    collection_time := t }

theorem roundToNat_three_halves : roundToNat (3 / 2 : ℚ) = 2 := by
  unfold roundToNat rustRound
  rw [if_pos (by norm_num)]
  rw [show (3 / 2 : ℚ) + 1 / 2 = ((2 : ℤ) : ℚ) by norm_num, Int.floor_intCast]
  rfl

/-- Claim C8: consolidation averages memory-used and rounds it, takes the
running maximum for memory-total, and rounds averaged socket counts:
consolidating `[{mem 10, total 100}, {mem 20, total 50}]` gives used 15 and
total 100, and tcp counts `[1, 2]` give `round (3/2) = 2`. -/
theorem consolidate_mem_mean_total_max_socket_round :
    (consolidate_all_stats
        [memSockStats 1 10 100 1, memSockStats 2 20 50 2]).memory = some ⟨15, 100⟩ ∧
      Option.map SocketStats.tcp_in_use
          (consolidate_all_stats
            [memSockStats 1 10 100 1, memSockStats 2 20 50 2]).network.sockets
        = some 2 := by
  have hused : updated_average (updated_average 0 (10 : ℚ) 1) (20 : ℚ) 2 = 15 := by
    norm_num [updated_average]
  have htcp : updated_average (updated_average 0 (1 : ℚ) 1) (2 : ℚ) 2 = 3 / 2 := by
    norm_num [updated_average]
  constructor
  · show (consolidate_all_stats _).memory = _
    simp only [consolidate_all_stats, consFold, consStep, memSockStats, initConsAcc]
    norm_num [hused]
    rw [show (15 : ℚ) = ((15 : ℕ) : ℚ) by norm_num, roundToNat_natCast]
  · show Option.map _ (consolidate_all_stats _).network.sockets = _
    simp only [consolidate_all_stats, consFold, consStep, memSockStats, initConsAcc]
    norm_num [htcp, roundToNat_three_halves]

/-- Counterexample to claim C3 as stated: with batch
`[aggregate = some 6, aggregate = none]` the source's consolidation yields 6
(an absent metric merely skips the running-average update), while the
claimed zero-contribution mean is `(6 + 0) / 2 = 3`. -/
theorem consolidate_absent_as_zero_counterexample :
    (consolidate_all_stats [onlyAggStats 1 6, sampleStats 2]).cpu.aggregate_load_percent
        = some 6 ∧
      zeroContributionMean ([onlyAggStats 1 6, sampleStats 2].map
          (fun x => x.cpu.aggregate_load_percent)) = 3 ∧
      (consolidate_all_stats [onlyAggStats 1 6, sampleStats 2]).cpu.aggregate_load_percent
        ≠ some (zeroContributionMean ([onlyAggStats 1 6, sampleStats 2].map
            (fun x => x.cpu.aggregate_load_percent))) := by
  have h1 : (consolidate_all_stats
      [onlyAggStats 1 6, sampleStats 2]).cpu.aggregate_load_percent = some 6 := by
    simp only [consolidate_all_stats, consFold, consStep, onlyAggStats, sampleStats, initConsAcc]
    norm_num [updated_average]
  have h2 : zeroContributionMean ([onlyAggStats 1 6, sampleStats 2].map
      (fun x => x.cpu.aggregate_load_percent)) = 3 := by
    simp only [zeroContributionMean, onlyAggStats, sampleStats, List.map_cons, List.map_nil]
    norm_num
  refine ⟨h1, h2, ?_⟩
  rw [h1, h2]
  simp only [ne_eq, Option.some.injEq]
  norm_num

/-- Claim C3, amended: an entry lacking a metric leaves the running average
unchanged rather than contributing zero; whenever, for a given metric, every
absent entry precedes every present one, the consolidated value equals the
arithmetic mean in which absent entries contribute zero to the numerator but
still count in the denominator (integer-valued metrics are additionally
rounded). -/
theorem consolidate_zero_contribution_of_absent_leading (l : List AllStats) (hne : l ≠ []) :
    (absentOnlyLeading (l.map (fun x => x.general.load_averages.map LoadAverages.one_minute))
        = true →
      Option.map LoadAverages.one_minute (consolidate_all_stats l).general.load_averages
        = some (zeroContributionMean
            (l.map (fun x => x.general.load_averages.map LoadAverages.one_minute)))) ∧
    (absentOnlyLeading (l.map (fun x => x.general.load_averages.map LoadAverages.five_minutes))
        = true →
      Option.map LoadAverages.five_minutes (consolidate_all_stats l).general.load_averages
        = some (zeroContributionMean
            (l.map (fun x => x.general.load_averages.map LoadAverages.five_minutes)))) ∧
    (absentOnlyLeading
        (l.map (fun x => x.general.load_averages.map LoadAverages.fifteen_minutes)) = true →
      Option.map LoadAverages.fifteen_minutes (consolidate_all_stats l).general.load_averages
        = some (zeroContributionMean
            (l.map (fun x => x.general.load_averages.map LoadAverages.fifteen_minutes)))) ∧
    (∀ j : ℕ, absentOnlyLeading (l.map (cpuLoadStream j)) = true →
      (((consolidate_all_stats l).cpu.per_logical_cpu_load_percent.getD []).getD j 0)
        = zeroContributionMean (l.map (cpuLoadStream j))) ∧
    (absentOnlyLeading (l.map (fun x => x.cpu.aggregate_load_percent)) = true →
      (consolidate_all_stats l).cpu.aggregate_load_percent
        = some (zeroContributionMean (l.map (fun x => x.cpu.aggregate_load_percent)))) ∧
    (absentOnlyLeading (l.map (fun x => x.cpu.temp_celsius)) = true →
      (consolidate_all_stats l).cpu.temp_celsius
        = some (zeroContributionMean (l.map (fun x => x.cpu.temp_celsius)))) ∧
    (absentOnlyLeading (l.map (fun x => x.memory.map (fun m => (m.used_mb : ℚ)))) = true →
      Option.map MemoryStats.used_mb (consolidate_all_stats l).memory
        = some (roundToNat (zeroContributionMean
            (l.map (fun x => x.memory.map (fun m => (m.used_mb : ℚ))))))) ∧
    (absentOnlyLeading (l.map (fun x => x.network.sockets.map (fun s => (s.tcp_in_use : ℚ))))
        = true →
      Option.map SocketStats.tcp_in_use (consolidate_all_stats l).network.sockets
        = some (roundToNat (zeroContributionMean
            (l.map (fun x => x.network.sockets.map (fun s => (s.tcp_in_use : ℚ))))))) ∧
    (absentOnlyLeading (l.map (fun x => x.network.sockets.map (fun s => (s.tcp_orphaned : ℚ))))
        = true →
      Option.map SocketStats.tcp_orphaned (consolidate_all_stats l).network.sockets
        = some (roundToNat (zeroContributionMean
            (l.map (fun x => x.network.sockets.map (fun s => (s.tcp_orphaned : ℚ))))))) ∧
    (absentOnlyLeading (l.map (fun x => x.network.sockets.map (fun s => (s.udp_in_use : ℚ))))
        = true →
      Option.map SocketStats.udp_in_use (consolidate_all_stats l).network.sockets
        = some (roundToNat (zeroContributionMean
            (l.map (fun x => x.network.sockets.map (fun s => (s.udp_in_use : ℚ))))))) ∧
    (absentOnlyLeading (l.map (fun x => x.network.sockets.map (fun s => (s.tcp6_in_use : ℚ))))
        = true →
      Option.map SocketStats.tcp6_in_use (consolidate_all_stats l).network.sockets
        = some (roundToNat (zeroContributionMean
            (l.map (fun x => x.network.sockets.map (fun s => (s.tcp6_in_use : ℚ))))))) ∧
    (absentOnlyLeading (l.map (fun x => x.network.sockets.map (fun s => (s.udp6_in_use : ℚ))))
        = true →
      Option.map SocketStats.udp6_in_use (consolidate_all_stats l).network.sockets
        = some (roundToNat (zeroContributionMean
            (l.map (fun x => x.network.sockets.map (fun s => (s.udp6_in_use : ℚ))))))) := by
  rcases hl : l.getLast? with _ | last
  · exact absurd (List.getLast?_eq_none_iff.mp hl) hne
  refine ⟨?_, ?_, ?_, ?_, ?_, ?_, ?_, ?_, ?_, ?_, ?_, ?_⟩
  · intro hcond
    have h1 : (consFold l 0 initConsAcc).average_one_min_load_average
        = goAvg (l.map (fun x => x.general.load_averages.map LoadAverages.one_minute)) 0 0 :=
      consFold_proj (fun a => a.average_one_min_load_average)
        (fun y => y.general.load_averages.map LoadAverages.one_minute)
        (fun _ _ _ => rfl) l 0 initConsAcc
    rw [goAvg_absent_leading_eq_mean _ hcond] at h1
    simp only [consolidate_all_stats, hl, Option.map_some']
    rw [h1]
  · intro hcond
    have h1 : (consFold l 0 initConsAcc).average_five_min_load_average
        = goAvg (l.map (fun x => x.general.load_averages.map LoadAverages.five_minutes)) 0 0 :=
      consFold_proj (fun a => a.average_five_min_load_average)
        (fun y => y.general.load_averages.map LoadAverages.five_minutes)
        (fun _ _ _ => rfl) l 0 initConsAcc
    rw [goAvg_absent_leading_eq_mean _ hcond] at h1
    simp only [consolidate_all_stats, hl, Option.map_some']
    rw [h1]
  · intro hcond
    have h1 : (consFold l 0 initConsAcc).average_fifteen_min_load_average
        = goAvg (l.map (fun x => x.general.load_averages.map LoadAverages.fifteen_minutes)) 0 0 :=
      consFold_proj (fun a => a.average_fifteen_min_load_average)
        (fun y => y.general.load_averages.map LoadAverages.fifteen_minutes)
        (fun _ _ _ => rfl) l 0 initConsAcc
    rw [goAvg_absent_leading_eq_mean _ hcond] at h1
    simp only [consolidate_all_stats, hl, Option.map_some']
    rw [h1]
  · intro j hcond
    have h1 : (consFold l 0 initConsAcc).average_per_logical_cpu_loads.getD j 0
        = goAvg (l.map (cpuLoadStream j)) 0 0 :=
      consFold_perCpu_getD j l 0 initConsAcc
    rw [goAvg_absent_leading_eq_mean _ hcond] at h1
    simp only [consolidate_all_stats, hl, Option.getD_some]
    exact h1
  · intro hcond
    have h1 : (consFold l 0 initConsAcc).average_aggregate_cpu_load
        = goAvg (l.map (fun x => x.cpu.aggregate_load_percent)) 0 0 :=
      consFold_proj (fun a => a.average_aggregate_cpu_load)
        (fun y => y.cpu.aggregate_load_percent) (fun _ _ _ => rfl) l 0 initConsAcc
    rw [goAvg_absent_leading_eq_mean _ hcond] at h1
    simp only [consolidate_all_stats, hl]
    rw [h1]
  · intro hcond
    have h1 : (consFold l 0 initConsAcc).average_temp
        = goAvg (l.map (fun x => x.cpu.temp_celsius)) 0 0 :=
      consFold_proj (fun a => a.average_temp) (fun y => y.cpu.temp_celsius)
        (fun _ _ _ => rfl) l 0 initConsAcc
    rw [goAvg_absent_leading_eq_mean _ hcond] at h1
    simp only [consolidate_all_stats, hl]
    rw [h1]
  · intro hcond
    have h1 : (consFold l 0 initConsAcc).average_mem_used
        = goAvg (l.map (fun x => x.memory.map (fun m => (m.used_mb : ℚ)))) 0 0 :=
      consFold_proj (fun a => a.average_mem_used)
        (fun y => y.memory.map (fun mm => (mm.used_mb : ℚ))) consStepSpec_memUsed
        l 0 initConsAcc
    rw [goAvg_absent_leading_eq_mean _ hcond] at h1
    simp only [consolidate_all_stats, hl, Option.map_some']
    rw [h1]
  · intro hcond
    have h1 : (consFold l 0 initConsAcc).average_tcp_used
        = goAvg (l.map (fun x => x.network.sockets.map (fun s => (s.tcp_in_use : ℚ)))) 0 0 :=
      consFold_proj (fun a => a.average_tcp_used)
        (fun y => y.network.sockets.map (fun s => (s.tcp_in_use : ℚ))) consStepSpec_tcp
        l 0 initConsAcc
    rw [goAvg_absent_leading_eq_mean _ hcond] at h1
    simp only [consolidate_all_stats, hl, Option.map_some']
    rw [h1]
  · intro hcond
    have h1 : (consFold l 0 initConsAcc).average_tcp_orphaned
        = goAvg (l.map (fun x => x.network.sockets.map (fun s => (s.tcp_orphaned : ℚ)))) 0 0 :=
      consFold_proj (fun a => a.average_tcp_orphaned)
        (fun y => y.network.sockets.map (fun s => (s.tcp_orphaned : ℚ)))
        consStepSpec_tcpOrphaned l 0 initConsAcc
    rw [goAvg_absent_leading_eq_mean _ hcond] at h1
    simp only [consolidate_all_stats, hl, Option.map_some']
    rw [h1]
  · intro hcond
    have h1 : (consFold l 0 initConsAcc).average_udp_used
        = goAvg (l.map (fun x => x.network.sockets.map (fun s => (s.udp_in_use : ℚ)))) 0 0 :=
      consFold_proj (fun a => a.average_udp_used)
        (fun y => y.network.sockets.map (fun s => (s.udp_in_use : ℚ))) consStepSpec_udp
        l 0 initConsAcc
    rw [goAvg_absent_leading_eq_mean _ hcond] at h1
    simp only [consolidate_all_stats, hl, Option.map_some']
    rw [h1]
  · intro hcond
    have h1 : (consFold l 0 initConsAcc).average_tcp6_used
        = goAvg (l.map (fun x => x.network.sockets.map (fun s => (s.tcp6_in_use : ℚ)))) 0 0 :=
      consFold_proj (fun a => a.average_tcp6_used)
        (fun y => y.network.sockets.map (fun s => (s.tcp6_in_use : ℚ))) consStepSpec_tcp6
        l 0 initConsAcc
    rw [goAvg_absent_leading_eq_mean _ hcond] at h1
    simp only [consolidate_all_stats, hl, Option.map_some']
    rw [h1]
  · intro hcond
    have h1 : (consFold l 0 initConsAcc).average_udp6_used
        = goAvg (l.map (fun x => x.network.sockets.map (fun s => (s.udp6_in_use : ℚ)))) 0 0 :=
      consFold_proj (fun a => a.average_udp6_used)
        (fun y => y.network.sockets.map (fun s => (s.udp6_in_use : ℚ))) consStepSpec_udp6
        l 0 initConsAcc
    rw [goAvg_absent_leading_eq_mean _ hcond] at h1
    simp only [consolidate_all_stats, hl, Option.map_some']
    rw [h1]

theorem consolidate_zero_contribution_of_absent_leading_witness :
    ([sampleStats 1, onlyAggStats 2 8] ≠ []) ∧
      absentOnlyLeading ([sampleStats 1, onlyAggStats 2 8].map
          (fun x => x.cpu.aggregate_load_percent)) = true ∧
      (consolidate_all_stats [sampleStats 1, onlyAggStats 2 8]).cpu.aggregate_load_percent
        = some (zeroContributionMean ([sampleStats 1, onlyAggStats 2 8].map
            (fun x => x.cpu.aggregate_load_percent))) :=
  ⟨by decide, by decide,
   (consolidate_zero_contribution_of_absent_leading [sampleStats 1, onlyAggStats 2 8]
       (by decide)).2.2.2.2.1 (by decide)⟩

/-- Counterexample to claim C2 as stated: if the collector really called
`push` (commit) with the consolidated snapshot and then `push` with the raw
one, three ticks from an empty history would leave three entries (the live
second sample plus two commits); the source instead replaces the live entry
with the consolidated snapshot, leaving the two entries the claim's own
end-to-end sentence describes. -/
theorem collector_commit_commit_counterexample :
    (runTicks 3 ([], StatsHistory.new 10)
          [sampleStats 1, sampleStats 2, sampleStats 3]).2.stats
        = [consolidate_all_stats [sampleStats 1, sampleStats 2, sampleStats 3],
           sampleStats 3] ∧
      (claimedRunTicks 3 ([], StatsHistory.new 10)
          [sampleStats 1, sampleStats 2, sampleStats 3]).2.stats
        = [sampleStats 2,
           consolidate_all_stats [sampleStats 1, sampleStats 2, sampleStats 3],
           sampleStats 3] ∧
      (runTicks 3 ([], StatsHistory.new 10)
          [sampleStats 1, sampleStats 2, sampleStats 3]).2.stats.length
        ≠ (claimedRunTicks 3 ([], StatsHistory.new 10)
            [sampleStats 1, sampleStats 2, sampleStats 3]).2.stats.length :=
  ⟨rfl, rfl, by decide⟩

/-- Claim C2, amended: when the batch reaches the consolidation limit the
collector calls `update_most_recent_stats` (replaceMostRecent) with the
consolidated snapshot — overwriting the live raw entry — followed by `push`
(commit) with the raw snapshot, so with consolidationLimit 3 and an empty
history of capacity at least 2, three ticks leave exactly two new entries:
the consolidated record followed by the third raw sample, with the batch
buffer reset to empty. -/
theorem collector_three_ticks_two_entries (r1 r2 r3 : AllStats) (C : ℕ) (hC : 2 ≤ C) :
    (runTicks 3 ([], StatsHistory.new C) [r1, r2, r3]).1 = [] ∧
      (runTicks 3 ([], StatsHistory.new C) [r1, r2, r3]).2.stats
        = [consolidate_all_stats [r1, r2, r3], r3] := by
  have hpush0 : ∀ y : AllStats, (StatsHistory.new C).push y = ⟨C, [y], 0⟩ := by
    intro y
    unfold StatsHistory.push
    rw [if_neg (by simp [StatsHistory.new]; omega)]
    rfl
  have hupdate_empty : ∀ y : AllStats,
      (StatsHistory.new C).update_most_recent_stats y = ⟨C, [y], 0⟩ := by
    intro y
    unfold StatsHistory.update_most_recent_stats
    rw [if_pos (by simp [StatsHistory.new])]
    exact hpush0 y
  have hupdate_one : ∀ a y : AllStats,
      (⟨C, [a], 0⟩ : StatsHistory).update_most_recent_stats y = ⟨C, [y], 0⟩ := by
    intro a y
    unfold StatsHistory.update_most_recent_stats
    rw [if_neg (by simp)]
    rfl
  have hpush_one : ∀ a y : AllStats,
      (⟨C, [a], 0⟩ : StatsHistory).push y = ⟨C, [a, y], 1⟩ := by
    intro a y
    unfold StatsHistory.push
    rw [if_neg (by simp; omega)]
    rfl
  have t1 : collectTick 3 [] (StatsHistory.new C) r1 = ([r1], ⟨C, [r1], 0⟩) := by
    unfold collectTick
    rw [if_neg (by simp)]
    rw [hupdate_empty r1]
    rfl
  have t2 : collectTick 3 [r1] (⟨C, [r1], 0⟩ : StatsHistory) r2
      = ([r1, r2], ⟨C, [r2], 0⟩) := by
    unfold collectTick
    rw [if_neg (by simp)]
    rw [hupdate_one r1 r2]
    rfl
  have t3 : collectTick 3 [r1, r2] (⟨C, [r2], 0⟩ : StatsHistory) r3
      = ([], ⟨C, [consolidate_all_stats [r1, r2, r3], r3], 1⟩) := by
    unfold collectTick
    rw [if_pos (by simp)]
    show ([], ((⟨C, [r2], 0⟩ : StatsHistory).update_most_recent_stats
        (consolidate_all_stats ([r1, r2] ++ [r3]))).push r3) = _
    rw [hupdate_one r2 (consolidate_all_stats ([r1, r2] ++ [r3]))]
    rw [hpush_one (consolidate_all_stats ([r1, r2] ++ [r3])) r3]
    rfl
  have hrun : runTicks 3 ([], StatsHistory.new C) [r1, r2, r3]
      = ([], ⟨C, [consolidate_all_stats [r1, r2, r3], r3], 1⟩) := by
    show collectTick 3 (collectTick 3 (collectTick 3 [] (StatsHistory.new C) r1).1
        (collectTick 3 [] (StatsHistory.new C) r1).2 r2).1
        (collectTick 3 (collectTick 3 [] (StatsHistory.new C) r1).1
          (collectTick 3 [] (StatsHistory.new C) r1).2 r2).2 r3 = _
    rw [t1]
    show collectTick 3 (collectTick 3 [r1] (⟨C, [r1], 0⟩ : StatsHistory) r2).1
        (collectTick 3 [r1] (⟨C, [r1], 0⟩ : StatsHistory) r2).2 r3 = _
    rw [t2]
    exact t3
  rw [hrun]
  exact ⟨rfl, rfl⟩

theorem collector_three_ticks_two_entries_witness :
    (2 ≤ 5) ∧
      (runTicks 3 ([], StatsHistory.new 5) [sampleStats 1, sampleStats 2, sampleStats 3]).1
        = [] ∧
      (runTicks 3 ([], StatsHistory.new 5)
          [sampleStats 1, sampleStats 2, sampleStats 3]).2.stats
        = [consolidate_all_stats [sampleStats 1, sampleStats 2, sampleStats 3],
           sampleStats 3] :=
  ⟨by decide,
   (collector_three_ticks_two_entries (sampleStats 1) (sampleStats 2) (sampleStats 3) 5
     (by decide)).1,
   (collector_three_ticks_two_entries (sampleStats 1) (sampleStats 2) (sampleStats 3) 5
     (by decide)).2⟩

theorem set_rotate_succ (l : List AllStats) (s : ℕ) (x : AllStats) (hs : s < l.length) :
    (l.set s x).rotate ((s + 1) % l.length) = (l.rotate s).drop 1 ++ [x] := by
  have hn : 0 < l.length := by omega
  apply List.ext_getElem
  · simp only [List.length_rotate, List.length_set, List.length_append, List.length_drop,
      List.length_cons, List.length_nil]
    omega
  · intro i h1 h2
    rw [List.getElem_rotate]
    simp only [List.length_set] at h1 ⊢
    have hmm : (i + (s + 1) % l.length) % l.length = (i + (s + 1)) % l.length :=
      Nat.add_mod_mod i (s + 1) l.length
    by_cases hi : i = l.length - 1
    · subst hi
      have hidx : (l.length - 1 + (s + 1) % l.length) % l.length = s := by
        rw [hmm, show l.length - 1 + (s + 1) = l.length + s by omega, Nat.add_mod_left]
        exact Nat.mod_eq_of_lt hs
      rw [List.getElem_set, if_pos hidx.symm]
      rw [List.getElem_append_right (by simp only [List.length_drop, List.length_rotate]; omega)]
      simp
    · have hrange : i < l.length := by
        simp only [List.length_append, List.length_drop, List.length_rotate,
          List.length_cons, List.length_nil] at h2
        omega
      have hidx : (i + (s + 1) % l.length) % l.length ≠ s := by
        rw [hmm]
        intro heq
        rw [show i + (s + 1) = s + (i + 1) by omega] at heq
        have hme : s + (i + 1) ≡ s + 0 [MOD l.length] := by
          show (s + (i + 1)) % l.length = (s + 0) % l.length
          rw [heq, Nat.add_zero, Nat.mod_eq_of_lt hs]
        have hz : i + 1 ≡ 0 [MOD l.length] := Nat.ModEq.add_left_cancel' s hme
        have hdvd : l.length ∣ i + 1 := (Nat.modEq_zero_iff_dvd).mp hz
        have := Nat.le_of_dvd (by omega) hdvd
        omega
      rw [List.getElem_set, if_neg (fun hcontra => hidx hcontra.symm)]
      rw [List.getElem_append_left
        (by simp only [List.length_drop, List.length_rotate]; omega)]
      rw [List.getElem_drop]
      rw [List.getElem_rotate]
      have hix : (1 + i + s) % l.length = (i + (s + 1) % l.length) % l.length := by
        rw [hmm]
        congr 1
        omega
      congr 1
      exact hix.symm

theorem iterYield_walk (h : StatsHistory) :
    ∀ (r s fuel : ℕ), 1 ≤ r → s < h.max_size → r ≤ fuel →
      (s + (r - 1)) % h.max_size = h.most_recent_index →
      (∀ t, t < r - 1 → (s + t) % h.max_size ≠ h.most_recent_index) →
      iterYield h s fuel
        = (List.range r).map (fun t => h.stats.getD ((s + t) % h.max_size) default) := by
  intro r
  induction r with
  | zero => intro s fuel h1; omega
  | succ r ih =>
    intro s fuel h1 hs hfuel hlast hmid
    rcases fuel with _ | fuel
    · omega
    by_cases hr : r = 0
    · subst hr
      have hs_eq : s = h.most_recent_index := by
        have hx := hlast
        rwa [Nat.add_zero, Nat.mod_eq_of_lt hs] at hx
      show (if s = h.most_recent_index then [h.stats.getD s default]
          else h.stats.getD s default
            :: iterYield h (index_after s h.max_size) fuel) = _
      rw [if_pos hs_eq]
      rw [show List.range 1 = [0] from rfl]
      simp [Nat.mod_eq_of_lt hs]
    · have hne : s ≠ h.most_recent_index := by
        have hx := hmid 0 (by omega)
        rwa [Nat.add_zero, Nat.mod_eq_of_lt hs] at hx
      show (if s = h.most_recent_index then [h.stats.getD s default]
          else h.stats.getD s default
            :: iterYield h (index_after s h.max_size) fuel) = _
      rw [if_neg hne]
      have hC : 0 < h.max_size := by omega
      have ihapp := ih ((s + 1) % h.max_size) fuel (by omega) (Nat.mod_lt _ hC) (by omega)
        (by
          rw [Nat.mod_add_mod, show s + 1 + (r - 1) = s + r by omega]
          have hx := hlast
          rwa [show r + 1 - 1 = r by omega] at hx)
        (by
          intro t ht
          rw [Nat.mod_add_mod, show s + 1 + t = s + (t + 1) by omega]
          exact hmid (t + 1) (by omega))
      show h.stats.getD s default :: iterYield h ((s + 1) % h.max_size) fuel = _
      rw [ihapp, List.range_succ_eq_map, List.map_cons, List.map_map]
      congr 1
      · rw [Nat.add_zero, Nat.mod_eq_of_lt hs]
      · apply List.map_congr_left
        intro t ht
        show h.stats.getD (((s + 1) % h.max_size + t) % h.max_size) default = _
        rw [Nat.mod_add_mod]
        congr 2
        omega

theorem pushAll_repr (C : ℕ) (hC : 0 < C) (xs : List AllStats) :
    ((StatsHistory.new C).pushAll xs).max_size = C ∧
    (xs.length ≤ C →
      ((StatsHistory.new C).pushAll xs).stats = xs ∧
      ((StatsHistory.new C).pushAll xs).most_recent_index = xs.length - 1) ∧
    (C ≤ xs.length →
      ((StatsHistory.new C).pushAll xs).stats.length = C ∧
      ((StatsHistory.new C).pushAll xs).most_recent_index = (xs.length - 1) % C ∧
      ((StatsHistory.new C).pushAll xs).stats.rotate (xs.length % C)
        = xs.drop (xs.length - C)) := by
  induction xs using List.reverseRecOn with
  | nil =>
    refine ⟨rfl, fun _ => ⟨rfl, rfl⟩, fun hc => absurd hc (by simp; omega)⟩
  | append_singleton ys x ih =>
    have hstep : (StatsHistory.new C).pushAll (ys ++ [x])
        = ((StatsHistory.new C).pushAll ys).push x := by
      simp [StatsHistory.pushAll, List.foldl_append]
    rw [hstep]
    obtain ⟨ihmax, ihnf, ihf⟩ := ih
    by_cases hlen : ys.length < C
    · obtain ⟨hstats, hmri⟩ := ihnf (by omega)
      have hpush : ((StatsHistory.new C).pushAll ys).push x = ⟨C, ys ++ [x], ys.length⟩ := by
        unfold StatsHistory.push
        rw [if_neg (by rw [hstats, ihmax]; omega)]
        show (⟨((StatsHistory.new C).pushAll ys).max_size,
          ((StatsHistory.new C).pushAll ys).stats ++ [x],
          ((StatsHistory.new C).pushAll ys).stats.length⟩ : StatsHistory) = _
        rw [ihmax, hstats]
      rw [hpush]
      refine ⟨rfl, fun hle => ⟨rfl, by simp⟩, fun hge => ?_⟩
      have hceq : C = ys.length + 1 := by
        simp only [List.length_append, List.length_cons, List.length_nil] at hge
        omega
      refine ⟨by simp [hceq], ?_, ?_⟩
      · show ys.length = ((ys ++ [x]).length - 1) % C
        have hlen2 : (ys ++ [x]).length = ys.length + 1 := by simp
        rw [hlen2, show ys.length + 1 - 1 = ys.length by omega,
          Nat.mod_eq_of_lt (by omega)]
      have hmod : (ys ++ [x]).length % C = 0 := by
        have hlen2 : (ys ++ [x]).length = ys.length + 1 := by simp
        rw [hlen2, hceq, Nat.mod_self]
      rw [hmod, List.rotate_zero]
      have hdrop : (ys ++ [x]).length - C = 0 := by simp [hceq]
      rw [hdrop, List.drop_zero]
    · obtain ⟨hlenC, hmri, hrot⟩ := ihf (by omega)
      have hk1 : 1 ≤ ys.length := by omega
      have hnext : ((StatsHistory.new C).pushAll ys).get_next_index = ys.length % C := by
        unfold StatsHistory.get_next_index index_after
        rw [hmri, ihmax, Nat.mod_add_mod]
        congr 1
        omega
      have hpush : ((StatsHistory.new C).pushAll ys).push x
          = ⟨C, ((StatsHistory.new C).pushAll ys).stats.set (ys.length % C) x,
              ys.length % C⟩ := by
        unfold StatsHistory.push
        rw [if_pos (by rw [hlenC, ihmax])]
        show (⟨((StatsHistory.new C).pushAll ys).max_size,
          ((StatsHistory.new C).pushAll ys).stats.set
            (((StatsHistory.new C).pushAll ys).get_next_index) x,
          ((StatsHistory.new C).pushAll ys).get_next_index⟩ : StatsHistory) = _
        rw [ihmax, hnext]
      rw [hpush]
      refine ⟨rfl, fun hle => absurd hle (by simp; omega), fun hge => ?_⟩
      refine ⟨by simp [List.length_set, hlenC], ?_, ?_⟩
      · show ys.length % C = ((ys ++ [x]).length - 1) % C
        congr 1
        simp
      · have hsetlen : ys.length % C < ((StatsHistory.new C).pushAll ys).stats.length := by
          rw [hlenC]
          exact Nat.mod_lt _ hC
        have key := set_rotate_succ ((StatsHistory.new C).pushAll ys).stats
          (ys.length % C) x hsetlen
        rw [hlenC, Nat.mod_add_mod, hrot] at key
        have harg : (ys ++ [x]).length % C = (ys.length + 1) % C := by simp
        rw [harg, key, List.drop_drop]
        rw [show ys.length - C + 1 = ys.length + 1 - C by omega]
        rw [List.drop_append_of_le_length (by simp; omega)]
        simp

/-- Claim C1: after any sequence of `k` commits into an empty history of
capacity `C > 0` the storage length is `min k C`, and when `k` exceeds `C`
the iterator — starting at the circular-next index after
`most_recent_index` (index 0 would be used only if storage were not full) —
yields exactly the `C` most recently committed snapshots in commit order,
stopping by itself (the same output for every fuel of at least `C`, i.e.
after exactly `len(storage)` elements, ending at `most_recent_index`). -/
theorem ring_history_pushAll_spec (C : ℕ) (hC : 0 < C) (xs : List AllStats) :
    ((StatsHistory.new C).pushAll xs).stats.length = min xs.length C ∧
    (C < xs.length → ∀ fuel, C ≤ fuel →
      iterYield ((StatsHistory.new C).pushAll xs)
          (intoIterIndex ((StatsHistory.new C).pushAll xs)) fuel
        = xs.drop (xs.length - C)) := by
  obtain ⟨hmax, hnf, hf⟩ := pushAll_repr C hC xs
  constructor
  · rcases le_or_lt xs.length C with hle | hlt
    · rw [(hnf hle).1, min_eq_left hle]
    · rw [(hf (by omega)).1, min_eq_right (by omega)]
  · intro hlt fuel hfuel
    obtain ⟨hlen, hmri, hrot⟩ := hf (by omega)
    have hk1 : 1 ≤ xs.length := by omega
    have hstart : intoIterIndex ((StatsHistory.new C).pushAll xs) = xs.length % C := by
      unfold intoIterIndex
      rw [if_pos (by rw [hlen, hmax])]
      unfold StatsHistory.get_next_index index_after
      rw [hmri, hmax, Nat.mod_add_mod]
      congr 1
      omega
    rw [hstart]
    have hwalk := iterYield_walk ((StatsHistory.new C).pushAll xs) C (xs.length % C) fuel hC
      (by rw [hmax]; exact Nat.mod_lt _ hC) hfuel
      (by
        rw [hmax, hmri, Nat.mod_add_mod,
          show xs.length + (C - 1) = (xs.length - 1) + C by omega, Nat.add_mod_right])
      (by
        intro t ht
        rw [hmax, hmri, Nat.mod_add_mod]
        intro heq
        rw [show xs.length + t = (xs.length - 1) + (t + 1) by omega] at heq
        have hme : (xs.length - 1) + (t + 1) ≡ (xs.length - 1) + 0 [MOD C] := by
          show _ % C = _ % C
          rw [heq, Nat.add_zero]
        have hz : t + 1 ≡ 0 [MOD C] := Nat.ModEq.add_left_cancel' (xs.length - 1) hme
        have hdvd : C ∣ t + 1 := (Nat.modEq_zero_iff_dvd).mp hz
        have := Nat.le_of_dvd (by omega) hdvd
        omega)
    rw [hwalk]
    apply List.ext_getElem
    · simp only [List.length_map, List.length_range, List.length_drop]
      omega
    · intro i h1 h2
      simp only [List.getElem_map, List.getElem_range]
      have hidx : (xs.length % C + i) % ((StatsHistory.new C).pushAll xs).max_size
          < ((StatsHistory.new C).pushAll xs).stats.length := by
        rw [hmax, hlen]
        exact Nat.mod_lt _ hC
      rw [List.getD_eq_getElem _ _ hidx]
      have hback : List.drop (xs.length - C) xs
          = ((StatsHistory.new C).pushAll xs).stats.rotate (xs.length % C) := hrot.symm
      conv_rhs => rw [List.getElem_of_eq hback]
      rw [List.getElem_rotate]
      have hieq : (i + xs.length % C) % ((StatsHistory.new C).pushAll xs).stats.length
          = (xs.length % C + i) % ((StatsHistory.new C).pushAll xs).max_size := by
        rw [hmax, hlen]
        congr 1
        omega
      rw [← List.getD_eq_getElem _ default, ← List.getD_eq_getElem _ default, hieq]

theorem ring_history_pushAll_spec_witness :
    (0 < 2) ∧
      ((StatsHistory.new 2).pushAll
        [sampleStats 1, sampleStats 2, sampleStats 3]).stats.length = min 3 2 ∧
      iterYield ((StatsHistory.new 2).pushAll [sampleStats 1, sampleStats 2, sampleStats 3])
          (intoIterIndex
            ((StatsHistory.new 2).pushAll [sampleStats 1, sampleStats 2, sampleStats 3])) 2
        = [sampleStats 2, sampleStats 3] :=
  ⟨by decide,
   (ring_history_pushAll_spec 2 (by decide)
     [sampleStats 1, sampleStats 2, sampleStats 3]).1,
   (ring_history_pushAll_spec 2 (by decide)
     [sampleStats 1, sampleStats 2, sampleStats 3]).2 (by decide) 2 (by decide)⟩

theorem history_mutation_length_frame_witness :
    let h1 : StatsHistory := { max_size := 3, stats := [sampleStats 1], most_recent_index := 0 }
    let h0 := StatsHistory.new 3
    let hfull : StatsHistory :=
      { max_size := 1, stats := [sampleStats 1], most_recent_index := 0 }
    (h1.update_most_recent_stats (sampleStats 2)).stats.length = h1.stats.length ∧
      (h0.update_most_recent_stats (sampleStats 2)).stats.length = 1 ∧
      (hfull.push (sampleStats 2)).stats.length = hfull.stats.length ∧
      (h1.push (sampleStats 2)).stats.length = h1.stats.length + 1 :=
  ⟨(history_mutation_length_frame _ (sampleStats 2)).1 (by decide),
   (history_mutation_length_frame _ (sampleStats 2)).2.1 (by decide) (by decide),
   (history_mutation_length_frame _ (sampleStats 2)).2.2.1 (by decide),
   (history_mutation_length_frame _ (sampleStats 2)).2.2.2 (by decide)⟩
